import Mathlib

/-!
A shallow embedding, in Lean, of the traceroute/MTR route-visualization tool
of `src/ipinfo.py`: the regular-expression based hop extraction cascade, the
geolocation lookup with a fallback provider, the latency extraction, and the
pure data that feeds the map, the console summary table and the CSV export.

External effects are modelled as explicit oracle parameters: HTTP transport is
a function from the requested URL to either a raised exception or a response,
and DNS resolution is a function from hostname to an optional address.
Python floats are modelled as exact decimals; decoded JSON scalars are modelled by
`JVal` (JSON `null` decodes to Python `None`, modelled by `JVal.none`).
-/

namespace IpInfo

/-- Model of a Python float carrying an exact decimal value: the rational
`num / 10 ^ exp`.  The tool only ever parses floats from decimal strings and
compares them (it never adds or multiplies them), so exact decimals model
every value that actually arises; comparisons are by cross-multiplication. -/
structure PyFloat where
  num : Int
  exp : Nat
deriving DecidableEq

/-- Python `==` on two float values. -/
def PyFloat.beq (a b : PyFloat) : Bool :=
  a.num * ((10 ^ b.exp : Nat) : Int) == b.num * ((10 ^ a.exp : Nat) : Int)

/-- Python `<` on two float values. -/
def PyFloat.blt (a b : PyFloat) : Bool :=
  decide (a.num * ((10 ^ b.exp : Nat) : Int) < b.num * ((10 ^ a.exp : Nat) : Int))

/-- The float of an integer (e.g. the literal `100` or the default `0`). -/
def pf (n : Int) : PyFloat := ⟨n, 0⟩

/-- Model of a decoded JSON scalar value as produced by `response.json()`.
The provider code only ever inspects scalar fields, so nested arrays and
objects are not modelled as values. -/
inductive JVal where
  | none
  | bool (b : Bool)
  | num (q : PyFloat)
  | str (s : String)
deriving DecidableEq

/-- A decoded JSON object: the dictionary returned by `response.json()`. -/
abbrev JDoc := List (String × JVal)

/-- Python dictionary lookup on a decoded JSON object.  A duplicate key in the
JSON text leaves the last occurrence in the Python dict, hence the fold. -/
def jget (d : JDoc) (k : String) : Option JVal :=
  d.foldl (fun acc p => if p.1 = k then some p.2 else acc) Option.none

/-- `data.get(k, default)`. -/
def jgetD (d : JDoc) (k : String) (v : JVal) : JVal := (jget d k).getD v

/-- `k in data`. -/
def jmem (d : JDoc) (k : String) : Bool := (jget d k).isSome

/-- Python truthiness of a decoded JSON scalar. -/
def JVal.truthy : JVal → Bool
  | .none => false
  | .bool b => b
  | .num q => ¬ q.beq (pf 0)
  | .str s => s ≠ ""

/-- Assoc-list model of a Python dict: `m[k] = v` updates an existing binding
in place (keeping its position) and otherwise appends the new binding. -/
def dput {κ α : Type} [DecidableEq κ] : List (κ × α) → κ → α → List (κ × α)
  | [], k, v => [(k, v)]
  | (k', v') :: rest, k, v =>
    if k' = k then (k, v) :: rest else (k', v') :: dput rest k v

/-- Assoc-list model of `m.get(k)`. -/
def dget {κ α : Type} [DecidableEq κ] (m : List (κ × α)) (k : κ) : Option α :=
  (m.find? (fun p => decide (p.1 = k))).map (·.2)

/-- Model of Python `sorted(set(l))` for hop indices: the strictly increasing
enumeration of the members of `l`. -/
def insSorted (x : Nat) : List Nat → List Nat
  | [] => [x]
  | y :: ys => if x < y then x :: y :: ys else if x = y then y :: ys else y :: insSorted x ys

/-- Model of Python `sorted(set(l))`. -/
def sortedSet (l : List Nat) : List Nat := l.foldr insSorted []

/-- Decimal digit characters to the number they denote. -/
def digitsToNat (l : List Char) : Nat :=
  l.foldl (fun a c => a * 10 + (c.toNat - 48)) 0

/-- The whitespace characters stripped by `float()` and matched by `\s`
(the ASCII fragment; Unicode whitespace is outside the model). -/
def isPySpace (c : Char) : Bool :=
  c == ' ' || c == '\t' || c == '\n' || c == '\r' || c == '\x0b' || c == '\x0c'

/-- Exponent digits of a float literal. -/
def pyExpDigits (cs : List Char) : Option Int :=
  if cs ≠ [] ∧ cs.all Char.isDigit then some (digitsToNat cs : Int) else Option.none

/-- Signed exponent of a float literal. -/
def pyExpSigned : List Char → Option Int
  | '+' :: rest => pyExpDigits rest
  | '-' :: rest => (pyExpDigits rest).map Neg.neg
  | rest => pyExpDigits rest

/-- Optional exponent suffix of a float literal. -/
def pyExpPart : List Char → Option Int
  | [] => some 0
  | 'e' :: rest => pyExpSigned rest
  | 'E' :: rest => pyExpSigned rest
  | _ => Option.none

/-- Build the float `sign * mant / 10 ^ fexp * 10 ^ e` as an exact
decimal. -/
def PyFloat.ofParts (neg : Bool) (mant : Nat) (fexp : Nat) (e : Int) : PyFloat :=
  let sgn : Int := if neg then -(mant : Int) else (mant : Int)
  let d : Int := e - (fexp : Int)
  if 0 ≤ d then ⟨sgn * ((10 ^ d.toNat : Nat) : Int), 0⟩ else ⟨sgn, (-d).toNat⟩

/-- Unsigned part of a Python float literal: digits with an optional decimal
point and an optional exponent; at least one digit is required. -/
def pyFloatMag (neg : Bool) (cs : List Char) : Option PyFloat :=
  let ipart := cs.takeWhile Char.isDigit
  let rest1 := cs.dropWhile Char.isDigit
  match rest1 with
  | '.' :: rest2 =>
    let fpart := rest2.takeWhile Char.isDigit
    let rest3 := rest2.dropWhile Char.isDigit
    if ipart = [] ∧ fpart = [] then Option.none
    else (pyExpPart rest3).map (fun e =>
      PyFloat.ofParts neg (digitsToNat (ipart ++ fpart)) fpart.length e)
  | _ =>
    if ipart = [] then Option.none
    else (pyExpPart rest1).map (fun e => PyFloat.ofParts neg (digitsToNat ipart) 0 e)

/-- Model of Python `float(s)` on decimal literals (the only inputs the tool
feeds it): surrounding whitespace is stripped, then an optional sign and a
decimal literal with optional fraction and exponent.  `inf`, `nan` and digit
underscores are outside the model; the exact value is kept. -/
def pyFloat (s : String) : Option PyFloat :=
  let cs := ((s.toList.dropWhile isPySpace).reverse.dropWhile isPySpace).reverse
  match cs with
  | '+' :: rest => pyFloatMag false rest
  | '-' :: rest => pyFloatMag true rest
  | rest => pyFloatMag false rest

/-- Model of `s.split(sep)` for a single-character separator (the only kind
the tool uses), written by structural recursion so that it evaluates inside
the kernel. -/
def splitChAux (sep : Char) : List Char → List Char → List (List Char)
  | [], acc => [acc.reverse]
  | c :: rest, acc =>
    if c = sep then acc.reverse :: splitChAux sep rest []
    else splitChAux sep rest (c :: acc)

/-- Model of `s.split(sep)` / `String.splitOn` for a one-character
separator. -/
def splitCh (sep : Char) (s : String) : List String :=
  (splitChAux sep s.toList []).map String.mk

/-- ASCII `str.lower()`. -/
def lowerStr (s : String) : String := String.mk (s.toList.map Char.toLower)

/-! ## Model of the stdlib `ipaddress` module (external library used by the
code): `ip_address` parsing for IPv4 and IPv6 and the address classification
predicates used by `get_location`. -/

/-- One dotted-quad octet, as in cpython `_parse_octet`: one to three decimal
digits, no leading zero (unless the octet is exactly "0"), value at most 255. -/
def parseOctet (s : String) : Option Nat :=
  let cs := s.toList
  if cs = [] then Option.none
  else if ¬ cs.all Char.isDigit then Option.none
  else if cs.length > 3 then Option.none
  else if cs.length > 1 ∧ cs.head? = some '0' then Option.none
  else
    let n := digitsToNat cs
    if n ≤ 255 then some n else Option.none

/-- IPv4 parsing: exactly four octets separated by dots. -/
def parseIPv4 (s : String) : Option Nat :=
  match splitCh '.' s with
  | [a, b, c, d] => do
    let a' ← parseOctet a
    let b' ← parseOctet b
    let c' ← parseOctet c
    let d' ← parseOctet d
    pure (((a' * 256 + b') * 256 + c') * 256 + d')
  | _ => Option.none

/-- Value of a hexadecimal digit character. -/
def hexDigitVal (c : Char) : Option Nat :=
  if c.isDigit then some (c.toNat - 48)
  else if 'a' ≤ c ∧ c ≤ 'f' then some (c.toNat - 87)
  else if 'A' ≤ c ∧ c ≤ 'F' then some (c.toNat - 55)
  else Option.none

/-- One IPv6 hextet: one to four hexadecimal digits. -/
def parseHextet (s : String) : Option Nat :=
  let cs := s.toList
  if cs = [] ∨ cs.length > 4 then Option.none
  else (cs.mapM hexDigitVal).map (·.foldl (fun a d => a * 16 + d) 0)

/-- Lowercase hexadecimal rendering of a hextet value (no leading zeros),
used when an embedded IPv4 address is rewritten into two hextets. -/
def hexChars (n : Nat) : List Char :=
  let ds := [n / 4096 % 16, n / 256 % 16, n / 16 % 16, n % 16]
  let ds := ds.dropWhile (· = 0)
  let ds := if ds = [] then [0] else ds
  ds.map (fun d => if d < 10 then Char.ofNat (48 + d) else Char.ofNat (87 + d))

/-- Assemble the 128-bit value from the hextets before a `::`, the number of
zero hextets it stands for, and the hextets after it. -/
def ipv6FromParts (partsHi partsLo skipped : Nat) (parts : List String) : Option Nat := do
  let hi ← (parts.take partsHi).mapM parseHextet
  let lo ← (parts.drop (parts.length - partsLo)).mapM parseHextet
  let hiVal := (hi.foldl (fun a h => a * 65536 + h) 0) * 65536 ^ (skipped + partsLo)
  pure (lo.foldl (fun a h => a * 65536 + h) 0 + hiVal)

/-- IPv6 parsing following cpython `_ip_int_from_string`: split on `:`, allow
an embedded dotted-quad in the last part, allow at most one `::` (an empty
interior part), and bound the hextet count by eight. -/
def parseIPv6core (addr : String) : Option Nat :=
  let parts0 := splitCh ':' addr
  if parts0.length < 3 then Option.none else
  let withv4 : Option (List String) :=
    match parts0.getLast? with
    | some last =>
      if last.toList.contains '.' then
        (parseIPv4 last).map (fun v =>
          parts0.dropLast ++ [String.mk (hexChars (v / 65536)), String.mk (hexChars (v % 65536))])
      else some parts0
    | Option.none => Option.none
  match withv4 with
  | Option.none => Option.none
  | some parts =>
    if parts.length > 9 then Option.none else
    match (List.range parts.length).filter
        (fun i => 0 < i ∧ i + 1 < parts.length ∧ parts.get? i = some "") with
    | [] =>
      if parts.length ≠ 8 then Option.none
      else if parts.head? = some "" then Option.none
      else if parts.getLast? = some "" then Option.none
      else ipv6FromParts 8 0 0 parts
    | [i] =>
      let pHi := i
      let pLo := parts.length - i - 1
      let adj : Option (Nat × Nat) :=
        (if parts.head? = some "" then (if pHi = 1 then some 0 else Option.none)
         else some pHi).bind (fun h =>
          (if parts.getLast? = some "" then (if pLo = 1 then some 0 else Option.none)
           else some pLo).map (fun lo => (h, lo)))
      match adj with
      | Option.none => Option.none
      | some (h, lo) =>
        if h + lo ≥ 8 then Option.none
        else ipv6FromParts h lo (8 - (h + lo)) parts
    | _ => Option.none

/-- IPv6 parsing including a scope suffix (`addr%zone`, zone nonempty and
without a further `%`), as accepted by `ipaddress.ip_address`. -/
def parseIPv6 (s : String) : Option Nat :=
  if s.toList.contains '%' then
    match splitCh '%' s with
    | [addr, scope] => if scope = "" then Option.none else parseIPv6core addr
    | _ => Option.none
  else parseIPv6core s

/-- A parsed IP address: the 32-bit or 128-bit numeric value. -/
inductive IPAddr where
  | v4 (n : Nat)
  | v6 (n : Nat)
deriving DecidableEq

/-- Model of `ipaddress.ip_address`: IPv4 is tried first, then IPv6; an
unparseable string raises `ValueError`, modelled as `Option.none`. -/
def ip_address (s : String) : Option IPAddr :=
  match parseIPv4 s with
  | some n => some (.v4 n)
  | Option.none =>
    match parseIPv6 s with
    | some n => some (.v6 n)
    | Option.none => Option.none

/-- `is_valid_ip` from the source: a string is a valid IP address when
`ipaddress.ip_address` accepts it. -/
def is_valid_ip (s : String) : Bool := (ip_address s).isSome

/-- `ipaddress` loopback classification: `127.0.0.0/8`, `::1`. -/
def IPAddr.is_loopback : IPAddr → Bool
  | .v4 n => n / 2 ^ 24 == 127
  | .v6 n => n == 1

/-- `ipaddress` unspecified-address classification: `0.0.0.0`, `::`. -/
def IPAddr.is_unspecified : IPAddr → Bool
  | .v4 n => n == 0
  | .v6 n => n == 0

/-- `ipaddress` link-local classification: `169.254.0.0/16`, `fe80::/10`. -/
def IPAddr.is_link_local : IPAddr → Bool
  | .v4 n => n / 2 ^ 16 == 0xa9fe
  | .v6 n => n / 2 ^ 118 == 0x3fa

/-- `ipaddress` private classification: membership in the private network
lists of the cpython module (each test compares the network prefix bits). -/
def IPAddr.is_private : IPAddr → Bool
  | .v4 n =>
    n / 2 ^ 24 == 0 || n / 2 ^ 24 == 10 || n / 2 ^ 24 == 127 ||
    n / 2 ^ 16 == 0xa9fe || n / 2 ^ 20 == 0xac1 || n / 2 ^ 3 == 0x18000000 ||
    n / 2 == 0x60000055 || n / 2 ^ 8 == 0xc00002 || n / 2 ^ 16 == 0xc0a8 ||
    n / 2 ^ 17 == 0x6309 || n / 2 ^ 8 == 0xc63364 || n / 2 ^ 8 == 0xcb0071 ||
    n / 2 ^ 28 == 15 || n == 0xffffffff
  | .v6 n =>
    n == 1 || n == 0 || n / 2 ^ 32 == 0xffff || n / 2 ^ 64 == 0x0100000000000000 ||
    n / 2 ^ 105 == 0x100080 || n / 2 ^ 96 == 0x20010db8 || n / 2 ^ 100 == 0x2001001 ||
    n / 2 ^ 121 == 0x7e || n / 2 ^ 118 == 0x3fa

/-- The disjunction of address classes that `get_location` skips, in the
order the source tests them. -/
def IPAddr.isSkipped (a : IPAddr) : Bool :=
  a.is_private || a.is_loopback || a.is_unspecified || a.is_link_local

/-! ## A small backtracking regex engine with Python `re` semantics
(leftmost match, ordered alternation, greedy and lazy repetition,
`MULTILINE` anchors, word boundaries).  Each pattern of the source is
transcribed literally into the `RE` syntax below. -/

/-- Character classes occurring in the source patterns. -/
inductive CC where
  | digit
  | space
  | nonspace
  | anyNoNL
  | lit (c : Char)
  | wordDotDash
  | alnumDotDash
deriving DecidableEq

/-- `\w` (ASCII fragment). -/
def isWordChar (c : Char) : Bool := c.isAlphanum || c == '_'

/-- Membership of a character in a class: `\d`, `\s`, `[^\s]`, `.` under
`MULTILINE`, a literal character, `[\w\.\-]`, and `[a-zA-Z0-9\-\.]`. -/
def CC.mem : CC → Char → Bool
  | .digit, c => c.isDigit
  | .space, c => isPySpace c
  | .nonspace, c => ¬ isPySpace c
  | .anyNoNL, c => c ≠ '\n'
  | .lit a, c => c == a
  | .wordDotDash, c => isWordChar c || c == '.' || c == '-'
  | .alnumDotDash, c => c.isAlphanum || c == '-' || c == '.'

/-- Regex syntax: empty, a character class, sequence, ordered alternation,
greedy star, lazy star, greedy option, a numbered capture group, the
`MULTILINE` `^` anchor, and the word boundary `\b`. -/
inductive RE where
  | eps
  | cls (c : CC)
  | seq (a b : RE)
  | alt (a b : RE)
  | star (a : RE)
  | starL (a : RE)
  | opt (a : RE)
  | group (n : Nat) (a : RE)
  | bol
  | wb

/-- Greedy `+`. -/
def RE.plus (a : RE) : RE := .seq a (.star a)

/-- A literal string (e.g. what `re.escape` produces for an IP address). -/
def litStr (s : String) : RE :=
  s.toList.foldr (fun c r => .seq (.cls (.lit c)) r) .eps

/-- Sequencing of a pattern list. -/
def catR (l : List RE) : RE := l.foldr .seq .eps

/-- Node count, used only to bound the matcher's recursion depth. -/
def RE.size : RE → Nat
  | .eps | .bol | .wb | .cls _ => 1
  | .seq a b | .alt a b => a.size + b.size + 1
  | .star a | .starL a | .opt a | .group _ a => a.size + 1

/-- Captured groups of one match (most recent write first). -/
abbrev Caps := List (Nat × String)

/-- Result of one successful match attempt: the remaining input, the
character just before it, and the captured groups. -/
structure MRes where
  rest : List Char
  prev : Option Char
  caps : Caps

/-- The backtracking matcher, in continuation-passing style.  `prev` is the
character immediately before the current position (for `^` and `\b`).  The
fuel only bounds the recursion depth; every star body in the source patterns
consumes at least one character, so with the generous fuel chosen in
`reFindall` the fuel never runs out on a viable path. -/
def mat : Nat → RE → List Char → Option Char → Caps →
    (List Char → Option Char → Caps → Option MRes) → Option MRes
  | 0, _, _, _, _, _ => Option.none
  | fuel + 1, r, s, prev, caps, k =>
    match r with
    | .eps => k s prev caps
    | .bol =>
      if prev = Option.none ∨ prev = some '\n' then k s prev caps else Option.none
    | .wb =>
      let pw := match prev with | some c => isWordChar c | Option.none => false
      let nw := match s with | c :: _ => isWordChar c | [] => false
      if pw ≠ nw then k s prev caps else Option.none
    | .cls cc =>
      match s with
      | [] => Option.none
      | c :: rest => if cc.mem c then k rest (some c) caps else Option.none
    | .seq a b => mat fuel a s prev caps (fun s1 p1 c1 => mat fuel b s1 p1 c1 k)
    | .alt a b =>
      match mat fuel a s prev caps k with
      | some res => some res
      | Option.none => mat fuel b s prev caps k
    | .opt a =>
      match mat fuel a s prev caps k with
      | some res => some res
      | Option.none => k s prev caps
    | .star a =>
      match mat fuel a s prev caps (fun s1 p1 c1 =>
          if s1.length < s.length then mat fuel (.star a) s1 p1 c1 k
          else Option.none) with
      | some res => some res
      | Option.none => k s prev caps
    | .starL a =>
      match k s prev caps with
      | some res => some res
      | Option.none =>
        mat fuel a s prev caps (fun s1 p1 c1 =>
          if s1.length < s.length then mat fuel (.starL a) s1 p1 c1 k
          else Option.none)
    | .group n a =>
      mat fuel a s prev caps (fun s1 p1 c1 =>
        k s1 p1 ((n, String.mk (s.take (s.length - s1.length))) :: c1))

/-- Fuel that dominates the matcher's recursion depth for a pattern and
input of the given sizes. -/
def matFuel (r : RE) (len : Nat) : Nat := (r.size + 2) * (2 * len + 8)

/-- Try to match `r` at the current position. -/
def matchHere (r : RE) (s : List Char) (prev : Option Char) : Option MRes :=
  mat (matFuel r s.length) r s prev [] (fun s1 p1 c1 => some ⟨s1, p1, c1⟩)

/-- `re.findall` scanning loop: try each position left to right, emit the
captures of every non-overlapping match, resume after each match (advancing
one character after an empty match, as Python does). -/
def findallFrom : Nat → RE → List Char → Option Char → List Caps
  | 0, _, _, _ => []
  | gas + 1, r, s, prev =>
    match matchHere r s prev with
    | some res =>
      if res.rest.length < s.length then
        res.caps :: findallFrom gas r res.rest res.prev
      else
        match s with
        | [] => [res.caps]
        | c :: rest => res.caps :: findallFrom gas r rest (some c)
    | Option.none =>
      match s with
      | [] => []
      | c :: rest => findallFrom gas r rest (some c)

/-- `re.findall(pattern, s)` (with `re.MULTILINE` expressed by `RE.bol`). -/
def reFindall (r : RE) (s : String) : List Caps :=
  findallFrom (s.length + 1) r s.toList Option.none

/-- Group extraction from one match: Python's `findall` yields `""` for a
group that did not participate. -/
def grp (caps : Caps) (n : Nat) : String :=
  ((caps.find? (fun p => decide (p.1 = n))).map (·.2)).getD ""

/-! ## The source patterns, transcribed one-to-one. -/

/-- `\d+\.?\d*` (no group). -/
def numRE : RE :=
  catR [RE.plus (.cls .digit), .opt (.cls (.lit '.')), .star (.cls .digit)]

/-- `\d{1,3}` -/
def d13 : RE := .seq (.cls .digit) (.opt (.seq (.cls .digit) (.opt (.cls .digit))))

/-- `\d{1,3}\.\d{1,3}\.\d{1,3}\.\d{1,3}` -/
def ipv4RE : RE :=
  catR [d13, .cls (.lit '.'), d13, .cls (.lit '.'), d13, .cls (.lit '.'), d13]

/-- `^\s*(\d+)\.\s+(?:AS(\d+|\?\?\?))\s+([^\s]+)\s+(\d+\.?\d*|100\.0)%` -/
def mtr_full_re : RE :=
  catR [RE.bol, .star (.cls .space),
        .group 1 (RE.plus (.cls .digit)), .cls (.lit '.'),
        RE.plus (.cls .space),
        litStr "AS",
        .group 2 (.alt (RE.plus (.cls .digit)) (litStr "???")),
        RE.plus (.cls .space),
        .group 3 (RE.plus (.cls .nonspace)),
        RE.plus (.cls .space),
        .group 4 (.alt numRE (litStr "100.0")),
        .cls (.lit '%')]

/-- `^\s*(\d+)\.\s+[\w\.\-]+\s+(\d{1,3}\.\d{1,3}\.\d{1,3}\.\d{1,3})` -/
def mtr_detailed_re : RE :=
  catR [RE.bol, .star (.cls .space),
        .group 1 (RE.plus (.cls .digit)), .cls (.lit '.'),
        RE.plus (.cls .space),
        RE.plus (.cls .wordDotDash),
        RE.plus (.cls .space),
        .group 2 ipv4RE]

/-- `^\s*(\d+)(?:\.|:).*?\s+(\d{1,3}\.\d{1,3}\.\d{1,3}\.\d{1,3})` -/
def mtr_re : RE :=
  catR [RE.bol, .star (.cls .space),
        .group 1 (RE.plus (.cls .digit)),
        .alt (.cls (.lit '.')) (.cls (.lit ':')),
        .starL (.cls .anyNoNL),
        RE.plus (.cls .space),
        .group 2 ipv4RE]

/-- `^\s*(\d+)\s+(?:[\w\-\.]+\s+)?\(?(\d{1,3}\.\d{1,3}\.\d{1,3}\.\d{1,3})` -/
def traceroute_re : RE :=
  catR [RE.bol, .star (.cls .space),
        .group 1 (RE.plus (.cls .digit)),
        RE.plus (.cls .space),
        .opt (catR [RE.plus (.cls .wordDotDash), RE.plus (.cls .space)]),
        .opt (.cls (.lit '(')),
        .group 2 ipv4RE]

/-- `\b(\d{1,3}\.\d{1,3}\.\d{1,3}\.\d{1,3})\b` -/
def ip_re : RE := catR [RE.wb, .group 1 ipv4RE, RE.wb]

/-- `^\s*(\d+).*?(\d+\.?\d*|100\.0)%` -/
def loss_re : RE :=
  catR [RE.bol, .star (.cls .space),
        .group 1 (RE.plus (.cls .digit)),
        .starL (.cls .anyNoNL),
        .group 2 (.alt numRE (litStr "100.0")),
        .cls (.lit '%')]

/-- `^\s*(\d+).*?\s+([a-zA-Z0-9\-\.]+)\s+` -/
def hostname_re : RE :=
  catR [RE.bol, .star (.cls .space),
        .group 1 (RE.plus (.cls .digit)),
        .starL (.cls .anyNoNL),
        RE.plus (.cls .space),
        .group 2 (RE.plus (.cls .alnumDotDash)),
        RE.plus (.cls .space)]

/-- `(?:^|\s)` + `re.escape(ip)` + `.*?(\d+\.?\d*)\s*ms`, the per-address
latency pattern of `extract_latencies`. -/
def latency_ms_re (ip : String) : RE :=
  catR [.alt RE.bol (.cls (.space)),
        litStr ip,
        .starL (.cls .anyNoNL),
        .group 1 numRE,
        .star (.cls .space),
        litStr "ms"]

/-- `^\s*` + `str(hop)` + `\.\s+.*?\s+(\d+\.?\d*)\s+(\d+\.?\d*)\s+(\d+\.?\d*)`,
the per-hop MTR column pattern of `extract_latencies`. -/
def mtr_columns_re (hop : Nat) : RE :=
  catR [RE.bol, .star (.cls .space),
        litStr (toString hop), .cls (.lit '.'),
        RE.plus (.cls .space),
        .starL (.cls .anyNoNL),
        RE.plus (.cls .space),
        .group 1 numRE,
        RE.plus (.cls .space),
        .group 2 numRE,
        RE.plus (.cls .space),
        .group 3 numRE]

/-! ## `get_location`: the geolocation resolver with its fallback provider.
`requests.get` is modelled by an oracle from the URL to either a raised
exception (`Except.error`) or a response; `response.json()` may itself raise.
The second component of the result is the list of URLs actually requested. -/

/-- A Python exception, identified by its message. -/
abbrev PyErr := String

instance {ε α : Type} [DecidableEq ε] [DecidableEq α] : DecidableEq (Except ε α) := fun a b =>
  match a, b with
  | .error e, .error f => decidable_of_iff (e = f) (by simp)
  | .error _, .ok _ => isFalse (by simp)
  | .ok _, .error _ => isFalse (by simp)
  | .ok x, .ok y => decidable_of_iff (x = y) (by simp)

/-- Model of a `requests` response: the status code and the outcome of
decoding the body as JSON. -/
structure HttpResp where
  status_code : Nat
  json : Except PyErr JDoc

/-- The HTTP transport oracle: what `requests.get(url)` does. -/
abbrev Net := String → Except PyErr HttpResp

/-- URL of the primary provider query `https://ipinfo.io/{ip}/json`. -/
def urlPrimary (ip : String) : String := "https://ipinfo.io/" ++ ip ++ "/json"

/-- URL of the fallback provider query. -/
def urlFallback (ip : String) : String :=
  "http://ip-api.com/json/" ++ ip ++ "?fields=status,country,regionName,city,lat,lon,as,query"

/-- The location dictionary built by `get_location` (both providers fill the
same keys; `JVal.none` models Python `None`). -/
structure Location where
  ip : String
  country : JVal
  region : JVal
  city : JVal
  asn : JVal
  lat : JVal
  lon : JVal
deriving DecidableEq

/-- The `lat`/`lon` parse of the primary provider's `loc` string:
`lat, lon = data["loc"].split(",")` then `float` on each, with the
`(ValueError, TypeError)` handler leaving unparsed fields as `None`. -/
def parseLoc (s : String) : JVal × JVal :=
  match splitCh ',' s with
  | [a, b] =>
    match pyFloat a with
    | Option.none => (JVal.none, JVal.none)
    | some qa =>
      match pyFloat b with
      | Option.none => (JVal.num qa, JVal.none)
      | some qb => (JVal.num qa, JVal.num qb)
  | _ => (JVal.none, JVal.none)

/-- The coordinate-parsing step of the primary `try` block: `lat`/`lon` stay
`None` unless `"loc" in data` and truthy; calling `.split` on a non-string
`loc` raises `AttributeError`, which the inner `(ValueError, TypeError)`
handler does not catch, so it escapes the block. -/
def primary_locparse (data : JDoc) : Except PyErr (JVal × JVal) :=
  if jmem data "loc" ∧ (jgetD data "loc" JVal.none).truthy then
    match jgetD data "loc" JVal.none with
    | .str s => .ok (parseLoc s)
    | _ => .error "AttributeError: split"
  else .ok (JVal.none, JVal.none)

/-- Body of the primary-provider `try` block (the `requests.get` to
ipinfo.io): `Except.error` is an exception escaping the block, `ok (some l)`
is the `return location` inside it, and `ok none` is falling off its end
(insufficient response), which continues to the fallback provider. -/
def primary_attempt (net : Net) (ip : String) : Except PyErr (Option Location) :=
  match net (urlPrimary ip) with
  | .error e => .error e
  | .ok resp =>
    if resp.status_code = 200 then
      match resp.json with
      | .error e => .error e
      | .ok data =>
        match primary_locparse data with
        | .error e => .error e
        | .ok (lat, lon) =>
          if lat ≠ JVal.none ∧ lon ≠ JVal.none then
            .ok (some { ip := ip,
                        country := jgetD data "country" (.str "Unknown"),
                        region := jgetD data "region" (.str "Unknown"),
                        city := jgetD data "city" (.str "Unknown"),
                        asn := jgetD data "org" (.str "Unknown"),
                        lat := lat, lon := lon })
          else .ok Option.none
    else .ok Option.none

/-- Body of the fallback-provider `try` block (the `requests.get` to
ip-api.com): `ok (some l)` is the `return location` on `status == "success"`,
`ok none` is falling off its end. -/
def fallback_attempt (net : Net) (ip : String) : Except PyErr (Option Location) :=
  match net (urlFallback ip) with
  | .error e => .error e
  | .ok resp =>
    match resp.json with
    | .error e => .error e
    | .ok data =>
      if jgetD data "status" JVal.none = JVal.str "success" then
        .ok (some { ip := ip,
                    country := jgetD data "country" (.str "Unknown"),
                    region := jgetD data "regionName" (.str "Unknown"),
                    city := jgetD data "city" (.str "Unknown"),
                    asn := jgetD data "as" (.str "Unknown"),
                    lat := jgetD data "lat" JVal.none,
                    lon := jgetD data "lon" JVal.none })
      else .ok Option.none

/-- The result of the fallback section of `get_location`: an exception from
the fallback provider is caught and the function falls through to
`return None`. -/
def fallback_answer (net : Net) (ip : String) : Option Location :=
  match fallback_attempt net ip with
  | .ok v => v
  | .error _ => Option.none

/-- `get_location` from the source.  Skips private/loopback/unspecified/
link-local addresses (and unparseable strings, via the caught `ValueError`)
before any network traffic; otherwise queries the primary provider inside a
`try` whose handler falls through to the fallback provider, itself inside a
`try` whose handler falls through to `return None`.  The second component
lists the URLs requested. -/
def get_location (net : Net) (ip : String) :
    Except PyErr (Option Location) × List String :=
  match ip_address ip with
  | Option.none => (.ok Option.none, [])
  | some a =>
    if a.is_private || a.is_loopback || a.is_unspecified || a.is_link_local then
      (.ok Option.none, [])
    else
      match primary_attempt net ip with
      | .ok (some loc) => (.ok (some loc), [urlPrimary ip])
      | .ok Option.none => (.ok (fallback_answer net ip), [urlPrimary ip, urlFallback ip])
      | .error _ => (.ok (fallback_answer net ip), [urlPrimary ip, urlFallback ip])

/-- The value `get_location` hands to its callers.  The `error` branch is
unreachable (`get_location` catches all provider exceptions; see the theorem
about claim C7). -/
def get_location_val (net : Net) (ip : String) : Option Location :=
  match (get_location net ip).1 with
  | .ok v => v
  | .error _ => Option.none

/-- `resolve_hostname` from the source: `???`/`unknown` markers are never
resolved; a DNS failure (`socket.gaierror`, modelled by the oracle returning
`none`) yields no address; a resolved address is returned only if it is a
valid IP literal. -/
def resolve_hostname (dns : String → Option String) (hostname : String) : Option String :=
  if hostname == "???" || lowerStr hostname == "unknown" then Option.none
  else
    match dns hostname with
    | some ip => if is_valid_ip ip then some ip else Option.none
    | Option.none => Option.none

/-! ## `extract_ips_from_trace`: the ordered fallback cascade. -/

/-- The per-run extraction state: `ips_with_hops`, and the `packet_loss`,
`hostnames` and `asn_info` dictionaries. -/
structure ExtractState where
  ips : List (Nat × String)
  loss : List (Nat × PyFloat)
  hosts : List (Nat × String)
  asns : List (Nat × String)
deriving DecidableEq

/-- `int(hop)` on a digit string produced by a `(\d+)` group (the group
shape guarantees the string is nonempty and all digits). -/
def hopNat (s : String) : Nat := digitsToNat s.toList

/-- `float(loss.rstrip('%'))`: strip trailing percent signs, then parse.
The group shape `(\d+\.?\d*|100\.0)` guarantees that the parse succeeds. -/
def lossVal (l : String) : PyFloat :=
  (pyFloat (String.mk (((l.toList.reverse).dropWhile (· == '%')).reverse))).getD (pf 0)

/-- The tuples `findall` returns for the full MTR pattern:
`(hop, asn, host, loss)`. -/
def mtrFullMatches (trace : String) : List (String × String × String × String) :=
  (reFindall mtr_full_re trace).map (fun c => (grp c 1, grp c 2, grp c 3, grp c 4))

/-- The address a full-MTR match contributes: the host token itself when it
is a literal address; nothing for the `???`/`unknown` markers; otherwise the
DNS resolution of the hostname (which may fail). -/
def family1_ip (dns : String → Option String) (host : String) : Option String :=
  if is_valid_ip host then some host
  else if host == "???" || lowerStr host == "unknown" then Option.none
  else resolve_hostname dns host

/-- Processing of one full-MTR match, mirroring the loop body of the source:
every branch records the packet loss and a hostname; a hop whose host cannot
be turned into an address contributes no `ips_with_hops` entry; the AS tag is
stored only when present and not the unknown marker. -/
def family1_step (dns : String → Option String) (st : ExtractState)
    (m : String × String × String × String) : ExtractState :=
  let (hopS, asn, host, loss) := m
  let hop := hopNat hopS
  match family1_ip dns host with
  | Option.none =>
    let hostRec := if host == "???" || lowerStr host == "unknown" then "???" else host
    { st with loss := dput st.loss hop (lossVal loss),
              hosts := dput st.hosts hop hostRec }
  | some ip =>
    let st' := { st with ips := st.ips ++ [(hop, ip)],
                         loss := dput st.loss hop (lossVal loss),
                         hosts := dput st.hosts hop host }
    if asn ≠ "" ∧ asn ≠ "???" then
      { st' with asns := dput st'.asns hop ("AS" ++ asn) }
    else st'

/-- The full-MTR branch of the extractor: fold the loop body over the
matches, starting from empty collections. -/
def family1_state (dns : String → Option String) (trace : String) : ExtractState :=
  (mtrFullMatches trace).foldl (family1_step dns) ⟨[], [], [], []⟩

/-- The `(hop, ip)` pairs of the fallback families, tried in source order:
detailed MTR, standard MTR, standard traceroute, and the last-resort scan of
every address-shaped token with synthetic hop numbers. -/
def fallback_ips (trace : String) : List (Nat × String) :=
  let m2 := (reFindall mtr_detailed_re trace).map (fun c => (hopNat (grp c 1), grp c 2))
  if m2 ≠ [] then m2 else
  let m3 := (reFindall mtr_re trace).map (fun c => (hopNat (grp c 1), grp c 2))
  if m3 ≠ [] then m3 else
  let m4 := (reFindall traceroute_re trace).map (fun c => (hopNat (grp c 1), grp c 2))
  if m4 ≠ [] then m4 else
  ((reFindall ip_re trace).map (fun c => grp c 1)).enum.map (fun p => (p.1 + 1, p.2))

/-- The standalone packet-loss scan run when the full pattern matched
nothing. -/
def loss_supplement (trace : String) : List (Nat × PyFloat) :=
  (reFindall loss_re trace).foldl
    (fun m c => dput m (hopNat (grp c 1)) (lossVal (grp c 2))) []

/-- The standalone hostname scan run when the full pattern matched nothing;
tokens that are themselves addresses are not stored. -/
def hostname_supplement (trace : String) : List (Nat × String) :=
  (reFindall hostname_re trace).foldl
    (fun m c => if is_valid_ip (grp c 2) then m
                else dput m (hopNat (grp c 1)) (grp c 2)) []

/-- The extractor before deduplication: the full-MTR family wins outright
when it has any match; otherwise the permissive families supply only
`(hop, ip)` pairs and the standalone loss/hostname scans fill the (still
empty) dictionaries; no AS tags are recovered on that path. -/
def extract_pre (dns : String → Option String) (trace : String) : ExtractState :=
  if mtrFullMatches trace ≠ [] then
    family1_state dns trace
  else
    { ips := fallback_ips trace,
      loss := loss_supplement trace,
      hosts := hostname_supplement trace,
      asns := [] }

/-- The final duplicate filter of the extractor: drop entries whose address
was already seen or is not a valid IP literal, keeping first occurrences. -/
def dedupFilter : List (Nat × String) → List String → List (Nat × String)
  | [], _ => []
  | (hop, ip) :: rest, seen =>
    if ip ∉ seen ∧ is_valid_ip ip then
      (hop, ip) :: dedupFilter rest (ip :: seen)
    else
      dedupFilter rest seen

/-- `extract_ips_from_trace` from the source: the winning family's data with
the address list deduplicated. -/
def extract_ips_from_trace (dns : String → Option String) (trace : String) : ExtractState :=
  let st := extract_pre dns trace
  { st with ips := dedupFilter st.ips [] }

/-- The full-MTR-only pipeline (pattern-1 matches processed and
deduplicated); the theorem about claim C1 shows the extractor equals this
whenever the full pattern has at least one match. -/
def family1_result (dns : String → Option String) (trace : String) : ExtractState :=
  let st := family1_state dns trace
  { st with ips := dedupFilter st.ips [] }

/-! ## `extract_latencies`. -/

/-- The group-1 strings of the per-address `... ms` scan. -/
def msMatches (trace : String) (ip : String) : List String :=
  (reFindall (latency_ms_re ip) trace).map (fun c => grp c 1)

/-- The three captured columns of the per-hop MTR column scan. -/
def columnMatches (trace : String) (hop : Nat) : List (String × String × String) :=
  (reFindall (mtr_columns_re hop) trace).map (fun c => (grp c 1, grp c 2, grp c 3))

/-- `min(float(m) for m in matches)`: fails (raising the caught
`ValueError`) when any token fails to parse. -/
def minFloats (l : List String) : Option PyFloat :=
  (l.mapM pyFloat).bind (fun qs =>
    match qs with
    | [] => Option.none
    | x :: xs => some (xs.foldl (fun acc v => if v.blt acc then v else acc) x))

/-- The latency recorded for one hop: the `... ms` scan wins when it has any
match (taking the minimum value); otherwise the first MTR column match
contributes its second column (the average); otherwise nothing. -/
def hop_latency (trace : String) (hop : Nat) (ip : String) : Option PyFloat :=
  match msMatches trace ip with
  | [] =>
    match columnMatches trace hop with
    | [] => Option.none
    | t :: _ => pyFloat t.2.1
  | ms => minFloats ms

/-- `extract_latencies` from the source: a dictionary keyed by
`(hop, ip)`. -/
def extract_latencies (trace : String) (ips : List (Nat × String)) :
    List ((Nat × String) × PyFloat) :=
  ips.foldl (fun lat p =>
    match hop_latency trace p.1 p.2 with
    | some v => dput lat (p.1, p.2) v
    | Option.none => lat) []

/-! ## `create_map`: the data plotted on the map.  Marker placement, popup
HTML and the folium calls are presentation (external library); the model
captures the list of plotted locations in the order markers are added and
the path overlay follows, and the unreachable-hops overlay list. -/

/-- One plotted location: the provider fields plus the per-hop data the
source adds to the dictionary before plotting. -/
structure MapEntry where
  ip : String
  country : JVal
  region : JVal
  city : JVal
  asn : JVal
  lat : JVal
  lon : JVal
  hop : Nat
  latency : Option PyFloat
  packet_loss : PyFloat
  hostname : String
  asn_display : JVal
deriving DecidableEq

/-- The `locations` list of `create_map`: for each extracted `(hop, ip)` pair
in order, geolocate and keep only results with both coordinates; markers and
the path overlay are later drawn from this list in the same order. -/
def create_map_locations (net : Net) (ips : List (Nat × String))
    (loss : List (Nat × PyFloat)) (hosts : List (Nat × String))
    (asns : List (Nat × String)) (latencies : List ((Nat × String) × PyFloat)) :
    List MapEntry :=
  ips.foldl (fun acc p =>
    match get_location_val net p.2 with
    | some l =>
      if l.lat ≠ JVal.none ∧ l.lon ≠ JVal.none then
        acc ++ [{ ip := l.ip, country := l.country, region := l.region,
                  city := l.city, asn := l.asn, lat := l.lat, lon := l.lon,
                  hop := p.1,
                  latency := dget latencies (p.1, p.2),
                  packet_loss := (dget loss p.1).getD (pf 0),
                  hostname := (dget hosts p.1).getD "",
                  asn_display := match dget asns p.1 with
                                 | some a => .str a
                                 | Option.none => l.asn }]
      else acc
    | Option.none => acc) []

/-- The unreachable-hops overlay of `create_map`: hop indices with recorded
loss, in ascending order, kept when the loss is exactly 100 and no address
was extracted for that index; each carries its hostname and AS tag with
`???` fallbacks. -/
def create_map_unreachable (ips : List (Nat × String)) (loss : List (Nat × PyFloat))
    (hosts : List (Nat × String)) (asns : List (Nat × String)) :
    List (Nat × String × String) :=
  ((sortedSet (loss.map (·.1))).filter (fun hop =>
      ((dget loss hop).getD (pf 0)).beq (pf 100) && decide (hop ∉ ips.map (·.1)))).map
    (fun hop => (hop, (dget hosts hop).getD "???", (dget asns hop).getD "???"))

/-! ## `print_route_summary` and `save_route_data`: the per-hop rows of the
console table and of the CSV export.  Column padding, colors and the
`str()` rendering of JSON values are presentation; each row model carries
the data the source formats into the row. -/

/-- `location_lookup = {loc["ip"]: loc for loc in locations}` (a later
duplicate would win, as in a Python dict comprehension). -/
def location_lookup (locations : List MapEntry) (ip : String) : Option MapEntry :=
  locations.foldl (fun acc l => if l.ip = ip then some l else acc) Option.none

/-- One row of the console hop-details table.  `location` is the
`(city, country)` pair shown in the location column (`none` renders as
"Unknown"); `latency` of `none` renders as "N/A". -/
structure ConsoleRow where
  hop : Nat
  ip_str : String
  hostname_str : String
  loss : PyFloat
  latency : Option PyFloat
  location : Option (JVal × JVal)
  asn : JVal
deriving DecidableEq

/-- `s[:29].ljust(29)`. -/
def truncPad (s : String) : String :=
  let t := s.toList.take 29
  String.mk (t ++ List.replicate (29 - t.length) ' ')

/-- The hop-details rows printed by `print_route_summary`: one row per hop
index in `sorted(set(indices with an address or with recorded loss))`. -/
def print_route_summary_rows (ips : List (Nat × String)) (locations : List MapEntry)
    (loss : List (Nat × PyFloat)) (hosts : List (Nat × String))
    (asns : List (Nat × String)) (latencies : List ((Nat × String) × PyFloat)) :
    List ConsoleRow :=
  let all_hops := sortedSet (ips.map (·.1) ++ loss.map (·.1))
  all_hops.map (fun hop =>
    let ip := (ips.find? (fun p => decide (p.1 = hop))).map (·.2)
    let locF : Option MapEntry := ip.bind (location_lookup locations)
    { hop := hop,
      ip_str := ip.getD "???",
      hostname_str := truncPad ((dget hosts hop).getD ""),
      loss := (dget loss hop).getD (pf 0),
      latency := ip.bind (fun i => dget latencies (hop, i)),
      location := locF.map (fun l => (l.city, l.country)),
      asn := match locF with
             | some l => l.asn
             | Option.none => .str ((dget asns hop).getD "Unknown") })

/-- One row of the CSV export. `latency` of `none` renders as "N/A"; the
geography cells render "Unknown" strings when the address was not
resolved. -/
structure CsvRow where
  hop : Nat
  ip : String
  hostname : String
  loss : PyFloat
  latency : Option PyFloat
  city : JVal
  region : JVal
  country : JVal
  asn : JVal
deriving DecidableEq

/-- The header row written by `save_route_data`. -/
def csv_header : List String :=
  ["Hop", "IP", "Hostname", "Packet Loss (%)", "Latency (ms)",
   "City", "Region", "Country", "ASN"]

/-- The data rows written by `save_route_data`: one per hop index in
`sorted(set(indices with an address or with recorded loss))`. -/
def save_route_data_rows (ips : List (Nat × String)) (locations : List MapEntry)
    (loss : List (Nat × PyFloat)) (hosts : List (Nat × String))
    (asns : List (Nat × String)) (latencies : List ((Nat × String) × PyFloat)) :
    List CsvRow :=
  let all_hops := sortedSet (ips.map (·.1) ++ loss.map (·.1))
  all_hops.map (fun hop =>
    let ip := (ips.find? (fun p => decide (p.1 = hop))).map (·.2)
    let locF : Option MapEntry := ip.bind (location_lookup locations)
    { hop := hop,
      ip := ip.getD "???",
      hostname := (dget hosts hop).getD "",
      loss := (dget loss hop).getD (pf 0),
      latency := ip.bind (fun i => dget latencies (hop, i)),
      city := match locF with | some l => l.city | Option.none => .str "Unknown",
      region := match locF with | some l => l.region | Option.none => .str "Unknown",
      country := match locF with | some l => l.country | Option.none => .str "Unknown",
      asn := match locF with
             | some l => l.asn
             | Option.none => .str ((dget asns hop).getD "Unknown") })

/-! ## Export filenames.  `datetime.now().strftime("%Y%m%d_%H%M%S")` renders
the wall-clock time at second resolution; the microsecond field of the
clock reading is ignored by the format. -/

/-- A wall-clock reading as `datetime.now()` delivers it. `datetime` years
range over 1..9999. -/
structure PyDateTime where
  year : Nat
  month : Nat
  day : Nat
  hour : Nat
  minute : Nat
  second : Nat
  microsecond : Nat
deriving DecidableEq

/-- Decimal digit character. -/
def digitCh (d : Nat) : Char := Char.ofNat (48 + d)

/-- Two-digit zero-padded field (`%m`, `%d`, `%H`, `%M`, `%S`). -/
def pad2 (n : Nat) : List Char := [digitCh (n / 10 % 10), digitCh (n % 10)]

/-- Four-digit zero-padded year (`%Y`; `datetime` years are below 10000). -/
def pad4 (n : Nat) : List Char :=
  [digitCh (n / 1000 % 10), digitCh (n / 100 % 10), digitCh (n / 10 % 10), digitCh (n % 10)]

/-- `t.strftime("%Y%m%d_%H%M%S")`. -/
def strftime_ts (t : PyDateTime) : List Char :=
  pad4 t.year ++ pad2 t.month ++ pad2 t.day ++ ['_'] ++
  pad2 t.hour ++ pad2 t.minute ++ pad2 t.second

/-- `f"trace_map_{timestamp}.html"`, the map artifact name of
`create_map`. -/
def map_filename (t : PyDateTime) : String :=
  String.mk ("trace_map_".toList ++ strftime_ts t ++ ".html".toList)

/-- `f"trace_data_{timestamp}.csv"`, the export artifact name of
`save_route_data`. -/
def data_filename (t : PyDateTime) : String :=
  String.mk ("trace_data_".toList ++ strftime_ts t ++ ".csv".toList)

/-- The fields of a clock reading that the filename format can see. -/
def secondTuple (t : PyDateTime) : Nat × Nat × Nat × Nat × Nat × Nat :=
  (t.year, t.month, t.day, t.hour, t.minute, t.second)

/-- Validity bounds `datetime` guarantees for `now()` readings (the year
bound is what makes `%Y` four digits). -/
def PyDateTime.valid (t : PyDateTime) : Prop :=
  1000 ≤ t.year ∧ t.year < 10000 ∧ t.month < 100 ∧ t.day < 100 ∧
  t.hour < 100 ∧ t.minute < 100 ∧ t.second < 100

instance (t : PyDateTime) : Decidable t.valid := by
  unfold PyDateTime.valid; infer_instance

/-- Whether `create_map` plots a marker for this address: the resolver
returned a location carrying both coordinates. -/
def geo_plottable (net : Net) (ip : String) : Bool :=
  match get_location_val net ip with
  | some l => decide (l.lat ≠ JVal.none) && decide (l.lon ≠ JVal.none)
  | Option.none => false

/-- The map entry built for a plottable `(hop, ip)` pair (only meaningful
under `geo_plottable`; the fallback branch is never reached there). -/
def map_entry_for (net : Net) (loss : List (Nat × PyFloat))
    (hosts : List (Nat × String)) (asns : List (Nat × String))
    (latencies : List ((Nat × String) × PyFloat)) (p : Nat × String) : MapEntry :=
  match get_location_val net p.2 with
  | some l =>
    { ip := l.ip, country := l.country, region := l.region,
      city := l.city, asn := l.asn, lat := l.lat, lon := l.lon,
      hop := p.1,
      latency := dget latencies (p.1, p.2),
      packet_loss := (dget loss p.1).getD (pf 0),
      hostname := (dget hosts p.1).getD "",
      asn_display := match dget asns p.1 with
                     | some a => .str a
                     | Option.none => l.asn }
  | Option.none =>
    { ip := p.2, country := .none, region := .none, city := .none,
      asn := .none, lat := .none, lon := .none, hop := p.1,
      latency := Option.none, packet_loss := pf 0, hostname := "",
      asn_display := .none }

/-! Concrete example inputs used by witnesses and counterexamples. -/

/-- A DNS oracle on which every lookup fails. -/
def ex_dns : String → Option String := fun _ => Option.none

/-- A transport oracle giving coordinate-bearing primary answers for two
public resolvers and failing for everything else. -/
def ex_net : Net := fun u =>
  if u = urlPrimary "8.8.8.8" ∨ u = urlPrimary "9.9.9.9" then
    .ok ⟨200, .ok [("loc", .str "1.5,2.5")]⟩
  else .error "down"

/-- A trace whose lines report hop 2 before hop 1. -/
def ex_trace_desc : String := "2. AS15169 8.8.8.8 0.0%\n1. AS19281 9.9.9.9 0.0%\n"

/-- The extraction of `ex_trace_desc`. -/
def ex_state_desc : ExtractState := extract_ips_from_trace ex_dns ex_trace_desc

/-- A trace with an ordinary first hop and an unreachable second hop
(host `???`, 100% loss). -/
def ex_trace_unreach : String := "1. AS13335 1.1.1.1 0.0%\n2. AS??? ??? 100.0%\n"

/-- A trace in which hop index 5 carries both an unreachable `???` line and
a second line with a literal address. -/
def ex_trace_dup5 : String := "5. AS1 ??? 100.0%\n5. AS2 8.8.8.8 0.0%\n"

/-- A trace in which hop index 5 carries two address-less `???` lines, the
second reporting a loss other than 100%. -/
def ex_trace_gap5 : String := "1. AS13335 1.1.1.1 0.0%\n5. AS1 ??? 100.0%\n5. AS9 ??? 3.0%\n"

/-- A transport oracle on which only the fallback provider answers, with an
explicit success status. -/
def ex_net_fb : Net := fun u =>
  if u = urlFallback "1.0.0.1" then
    .ok ⟨200, .ok [("status", .str "success"), ("lat", .num ⟨7, 0⟩)]⟩
  else .error "primary down"

/-! # Theorems

Infrastructure lemmas about the dictionary and sorting models, then one
theorem per specification claim (with a witness or counterexample where
required). -/

theorem dget_dput_self {κ α : Type} [DecidableEq κ] (m : List (κ × α)) (k : κ) (v : α) :
    dget (dput m k v) k = some v := by
  induction m with
  | nil => simp [dput, dget, List.find?]
  | cons p rest ih =>
    by_cases h : p.1 = k
    · simp [dput, h, dget, List.find?]
    · simp only [dput]
      rw [if_neg h]
      simp only [dget, List.find?] at ih ⊢
      rw [decide_eq_false h]
      exact ih

theorem dget_dput_ne {κ α : Type} [DecidableEq κ] (m : List (κ × α)) (k k' : κ) (v : α)
    (h : k ≠ k') : dget (dput m k v) k' = dget m k' := by
  induction m with
  | nil => simp [dput, dget, List.find?, decide_eq_false h]
  | cons p rest ih =>
    by_cases hp : p.1 = k
    · simp only [dput, if_pos hp, dget, List.find?, decide_eq_false h]
      rw [← hp] at h
      simp [decide_eq_false h]
    · simp only [dput, if_neg hp, dget, List.find?] at ih ⊢
      cases hd : decide (p.1 = k') with
      | true => rfl
      | false => exact ih

theorem dget_some_mem_keys {κ α : Type} [DecidableEq κ] {m : List (κ × α)} {k : κ} {v : α}
    (h : dget m k = some v) : k ∈ m.map (·.1) := by
  induction m with
  | nil => simp [dget, List.find?] at h
  | cons p rest ih =>
    simp only [dget, List.find?] at h
    cases hd : decide (p.1 = k) with
    | true => exact List.mem_map.mpr ⟨p, List.mem_cons_self .., of_decide_eq_true hd ▸ rfl⟩
    | false =>
      rw [hd] at h
      exact List.mem_cons_of_mem _ (ih h)

theorem mem_insSorted {x b : Nat} {l : List Nat} :
    b ∈ insSorted x l ↔ b = x ∨ b ∈ l := by
  induction l with
  | nil => simp [insSorted]
  | cons y ys ih =>
    by_cases h1 : x < y
    · simp only [insSorted, if_pos h1]
      simp
    · by_cases h2 : x = y
      · subst h2
        simp only [insSorted, if_neg h1, if_pos rfl]
        simp
      · simp only [insSorted, if_neg h1, if_neg h2]
        simp [ih]
        tauto

theorem sorted_insSorted {x : Nat} {l : List Nat} (h : List.Sorted (· < ·) l) :
    List.Sorted (· < ·) (insSorted x l) := by
  induction l with
  | nil => simp [insSorted]
  | cons y ys ih =>
    rw [List.sorted_cons] at h
    obtain ⟨hy, hys⟩ := h
    by_cases h1 : x < y
    · simp only [insSorted, if_pos h1]
      rw [List.sorted_cons]
      refine ⟨?_, List.sorted_cons.mpr ⟨hy, hys⟩⟩
      intro b hb
      rcases List.mem_cons.mp hb with hb | hb
      · exact hb ▸ h1
      · exact lt_trans h1 (hy b hb)
    · by_cases h2 : x = y
      · simp only [insSorted, if_neg h1, if_pos h2]
        exact List.sorted_cons.mpr ⟨hy, hys⟩
      · have hyx : y < x := lt_of_le_of_ne (not_lt.mp h1) (fun e => h2 e.symm)
        simp only [insSorted, if_neg h1, if_neg h2]
        rw [List.sorted_cons]
        refine ⟨?_, ih hys⟩
        intro b hb
        rcases mem_insSorted.mp hb with hb | hb
        · exact hb ▸ hyx
        · exact hy b hb

theorem sortedSet_sorted (l : List Nat) : List.Sorted (· < ·) (sortedSet l) := by
  induction l with
  | nil => simp [sortedSet]
  | cons x xs ih => exact sorted_insSorted ih

theorem mem_sortedSet {a : Nat} {l : List Nat} : a ∈ sortedSet l ↔ a ∈ l := by
  induction l with
  | nil => simp [sortedSet]
  | cons x xs ih =>
    show a ∈ insSorted x (sortedSet xs) ↔ _
    rw [mem_insSorted, ih]
    simp

/-- Claim C1: whenever at least one line of the trace matches the
full-fidelity family-1 pattern, `extract_ips_from_trace` equals the pipeline
that processes family-1 matches only (and deduplicates them) — the more
permissive fallback families contribute nothing, even for lines that fail
family 1. -/
theorem claim_C1_family1_exclusive (dns : String → Option String) (trace : String)
    (h : mtrFullMatches trace ≠ []) :
    extract_ips_from_trace dns trace = family1_result dns trace := by
  unfold extract_ips_from_trace extract_pre family1_result
  rw [if_pos h]

/-- Witness for C1 at a concrete trace whose second line fails family 1. -/
theorem claim_C1_family1_exclusive_witness :
    mtrFullMatches "1. AS13335 1.1.1.1 0.0%\nsome junk line 9.9.9.9\n" ≠ [] ∧
    extract_ips_from_trace (fun _ => Option.none)
        "1. AS13335 1.1.1.1 0.0%\nsome junk line 9.9.9.9\n" =
      family1_result (fun _ => Option.none)
        "1. AS13335 1.1.1.1 0.0%\nsome junk line 9.9.9.9\n" :=
  ⟨by decide, claim_C1_family1_exclusive (fun _ => Option.none) _ (by decide)⟩

/-- Claim C2: an address string classified private, loopback, link-local or
unspecified makes `get_location` return unresolved immediately, with an
empty list of requested URLs — no provider is contacted and no location
(GeoFact) is produced, whatever the network would have answered. -/
theorem claim_C2_special_unresolved (net : Net) (ip : String) (a : IPAddr)
    (hparse : ip_address ip = some a)
    (hclass : a.is_private = true ∨ a.is_loopback = true ∨
              a.is_link_local = true ∨ a.is_unspecified = true) :
    get_location net ip = (.ok Option.none, []) := by
  have hskip : (a.is_private || a.is_loopback || a.is_unspecified || a.is_link_local) = true := by
    rcases hclass with h | h | h | h <;> simp [h]
  simp only [get_location, hparse, hskip, if_pos]

/-- Witness for C2 at the private address `192.168.1.1`, against an oracle
that would fail loudly if it were ever consulted. -/
theorem claim_C2_special_unresolved_witness :
    ip_address "192.168.1.1" = some (.v4 0xc0a80101) ∧
    (IPAddr.v4 0xc0a80101).is_private = true ∧
    get_location (fun _ => .error "oracle must not be called") "192.168.1.1" =
      (.ok Option.none, []) :=
  ⟨by decide, by decide,
   claim_C2_special_unresolved (fun _ => .error "oracle must not be called")
     "192.168.1.1" (.v4 0xc0a80101) (by decide) (Or.inl (by decide))⟩

/-- Claim C7: `get_location` never lets a provider exception escape — its
result is always `ok` — and when the primary provider block raises, the
result is exactly the fallback section's answer (for an address that
reaches the provider stage at all). -/
theorem claim_C7_exceptions_contained (net : Net) (ip : String) :
    ((get_location net ip).1.isOk = true) ∧
    (∀ a e, ip_address ip = some a →
      (a.is_private || a.is_loopback || a.is_unspecified || a.is_link_local) = false →
      primary_attempt net ip = .error e →
      (get_location net ip).1 = .ok (fallback_answer net ip)) := by
  constructor
  · cases hp : ip_address ip with
    | none => simp only [get_location, hp]; rfl
    | some a =>
      simp only [get_location, hp]
      by_cases hs : (a.is_private || a.is_loopback || a.is_unspecified || a.is_link_local) = true
      · rw [if_pos hs]
        rfl
      · rw [if_neg hs]
        cases hpa : primary_attempt net ip with
        | error e => rfl
        | ok v => cases v <;> rfl
  · intro a e hp hs hpa
    simp only [get_location, hp]
    rw [if_neg (by simp [hs])]
    simp only [hpa]

/-- Witness for C7: a transport that raises on every request still yields an
`ok` (unresolved) answer for a public address. -/
theorem claim_C7_exceptions_contained_witness :
    ((get_location (fun _ => .error "boom") "8.8.8.8").1.isOk = true) ∧
    (get_location (fun _ => .error "boom") "8.8.8.8").1 =
      .ok (fallback_answer (fun _ => .error "boom") "8.8.8.8") :=
  ⟨(claim_C7_exceptions_contained (fun _ => .error "boom") "8.8.8.8").1,
   (claim_C7_exceptions_contained (fun _ => .error "boom") "8.8.8.8").2
     (.v4 0x08080808) "boom" (by decide) (by decide) (by decide)⟩

/-- Claim C10: a string that is not a syntactically valid IP address at all
makes `get_location` return unresolved immediately — no request is issued,
nothing is raised, and no location is produced. -/
theorem claim_C10_invalid_unresolved (net : Net) (ip : String)
    (h : ip_address ip = Option.none) :
    get_location net ip = (.ok Option.none, []) := by
  simp only [get_location, h]

/-- Witness for C10 at a concrete non-address token. -/
theorem claim_C10_invalid_unresolved_witness :
    ip_address "gateway.local" = Option.none ∧
    get_location (fun _ => .error "oracle must not be called") "gateway.local" =
      (.ok Option.none, []) :=
  ⟨by decide, claim_C10_invalid_unresolved _ _ (by decide)⟩

theorem dedupFilter_spec {l : List (Nat × String)} {seen : List String}
    {p : Nat × String} (hp : p ∈ dedupFilter l seen) :
    p.2 ∉ seen ∧ is_valid_ip p.2 = true ∧
    List.find? (fun q => decide (q.2 = p.2)) l = some p := by
  induction l generalizing seen with
  | nil => simp [dedupFilter] at hp
  | cons hd rest ih =>
    obtain ⟨h0, ip0⟩ := hd
    by_cases hk : ip0 ∉ seen ∧ is_valid_ip ip0 = true
    · rw [dedupFilter, if_pos hk] at hp
      rcases List.mem_cons.mp hp with he | ht
      · subst he
        exact ⟨hk.1, hk.2, by simp [List.find?]⟩
      · obtain ⟨hseen, hvalid, hfind⟩ := ih ht
        have hne : p.2 ≠ ip0 := fun e => hseen (e ▸ List.mem_cons_self ..)
        refine ⟨fun hc => hseen (List.mem_cons_of_mem _ hc), hvalid, ?_⟩
        rw [List.find?]
        rw [decide_eq_false (fun e : ip0 = p.2 => hne e.symm)]
        exact hfind
    · rw [dedupFilter, if_neg hk] at hp
      obtain ⟨hseen, hvalid, hfind⟩ := ih hp
      have hne : p.2 ≠ ip0 := by
        intro e
        rcases not_and_or.mp hk with hk1 | hk2
        · exact hseen (e ▸ not_not.mp hk1)
        · rw [← e] at hk2
          exact hk2 hvalid
      refine ⟨hseen, hvalid, ?_⟩
      rw [List.find?]
      rw [decide_eq_false (fun e : ip0 = p.2 => hne e.symm)]
      exact hfind

theorem dedupFilter_nodup (l : List (Nat × String)) (seen : List String) :
    ((dedupFilter l seen).map (·.2)).Nodup := by
  induction l generalizing seen with
  | nil => simp [dedupFilter]
  | cons hd rest ih =>
    obtain ⟨h0, ip0⟩ := hd
    by_cases hk : ip0 ∉ seen ∧ is_valid_ip ip0 = true
    · rw [dedupFilter, if_pos hk]
      rw [List.map_cons, List.nodup_cons]
      refine ⟨?_, ih (ip0 :: seen)⟩
      intro hmem
      obtain ⟨q, hq, hq2⟩ := List.mem_map.mp hmem
      exact (dedupFilter_spec hq).1 (hq2 ▸ List.mem_cons_self ..)
    · rw [dedupFilter, if_neg hk]
      exact ih seen

theorem dedupFilter_exists {l : List (Nat × String)} {seen : List String}
    {h : Nat} {a : String} (hmem : (h, a) ∈ l) (hvalid : is_valid_ip a = true)
    (hseen : a ∉ seen) : ∃ h', (h', a) ∈ dedupFilter l seen := by
  induction l generalizing seen with
  | nil => simp at hmem
  | cons hd rest ih =>
    obtain ⟨h0, ip0⟩ := hd
    by_cases hk : ip0 ∉ seen ∧ is_valid_ip ip0 = true
    · rw [dedupFilter, if_pos hk]
      by_cases he : a = ip0
      · exact ⟨h0, he ▸ List.mem_cons_self ..⟩
      · have hmem' : (h, a) ∈ rest := by
          rcases List.mem_cons.mp hmem with hc | hc
          · exact absurd (congrArg Prod.snd hc) he
          · exact hc
        obtain ⟨h', hh'⟩ := ih hmem' (by
          intro hc
          rcases List.mem_cons.mp hc with e | e
          · exact he e
          · exact hseen e)
        exact ⟨h', List.mem_cons_of_mem _ hh'⟩
    · rw [dedupFilter, if_neg hk]
      have hmem' : (h, a) ∈ rest := by
        rcases List.mem_cons.mp hmem with hc | hc
        · exfalso
          have : ip0 = a := (congrArg Prod.snd hc).symm
          subst this
          rcases not_and_or.mp hk with hk1 | hk2
          · exact hseen (not_not.mp hk1)
          · exact hk2 hvalid
        · exact hc
      exact ih hmem' hseen

/-- Claim C3: the hop list returned by `extract_ips_from_trace` carries
pairwise distinct addresses; every entry is the first candidate bearing its
address (so a duplicated address keeps its first hop index); and every valid
candidate address does appear, under some hop index. -/
theorem claim_C3_dedup_first_occurrence (dns : String → Option String) (trace : String) :
    (((extract_ips_from_trace dns trace).ips.map (·.2)).Nodup) ∧
    (∀ p ∈ (extract_ips_from_trace dns trace).ips,
      List.find? (fun q => decide (q.2 = p.2)) (extract_pre dns trace).ips = some p) ∧
    (∀ h a, (h, a) ∈ (extract_pre dns trace).ips → is_valid_ip a = true →
      ∃ h', (h', a) ∈ (extract_ips_from_trace dns trace).ips) := by
  have hext : (extract_ips_from_trace dns trace).ips =
      dedupFilter (extract_pre dns trace).ips [] := rfl
  refine ⟨hext ▸ dedupFilter_nodup _ _, ?_, ?_⟩
  · intro p hp
    exact (dedupFilter_spec (hext ▸ hp)).2.2
  · intro h a hmem hvalid
    obtain ⟨h', hh'⟩ := dedupFilter_exists hmem hvalid (List.not_mem_nil a)
    exact ⟨h', hext ▸ hh'⟩

/-- Witness for C3 at a trace repeating `1.1.1.1` at hops 1 and 3: the hop
list keeps exactly the first occurrence. -/
theorem claim_C3_dedup_first_occurrence_witness :
    (((extract_ips_from_trace (fun _ => Option.none)
        "1. AS13335 1.1.1.1 0.0%\n2. AS15169 8.8.8.8 0.0%\n3. AS13335 1.1.1.1 0.0%\n").ips.map
        (·.2)).Nodup) ∧
    List.find? (fun q => decide (q.2 = "1.1.1.1"))
      (extract_pre (fun _ => Option.none)
        "1. AS13335 1.1.1.1 0.0%\n2. AS15169 8.8.8.8 0.0%\n3. AS13335 1.1.1.1 0.0%\n").ips =
      some (1, "1.1.1.1") ∧
    (∃ h', (h', "1.1.1.1") ∈ (extract_ips_from_trace (fun _ => Option.none)
        "1. AS13335 1.1.1.1 0.0%\n2. AS15169 8.8.8.8 0.0%\n3. AS13335 1.1.1.1 0.0%\n").ips) :=
  ⟨(claim_C3_dedup_first_occurrence (fun _ => Option.none) _).1,
   (claim_C3_dedup_first_occurrence (fun _ => Option.none) _).2.1 (1, "1.1.1.1") (by decide),
   (claim_C3_dedup_first_occurrence (fun _ => Option.none) _).2.2 3 "1.1.1.1"
     (by decide) (by decide)⟩

theorem extract_latencies_foldl (trace : String) (k : Nat × String) :
    ∀ (l : List (Nat × String)) (m0 : List ((Nat × String) × PyFloat)),
      dget (l.foldl (fun lat p =>
        match hop_latency trace p.1 p.2 with
        | some v => dput lat (p.1, p.2) v
        | Option.none => lat) m0) k =
      if k ∈ l ∧ (hop_latency trace k.1 k.2).isSome
      then hop_latency trace k.1 k.2 else dget m0 k := by
  intro l
  induction l with
  | nil => simp
  | cons p rest ih =>
    intro m0
    rw [List.foldl_cons, ih]
    by_cases hr : k ∈ rest ∧ (hop_latency trace k.1 k.2).isSome
    · rw [if_pos hr, if_pos ⟨List.mem_cons_of_mem _ hr.1, hr.2⟩]
    · rw [if_neg hr]
      by_cases hpk : p = k
      · subst hpk
        cases hlv : hop_latency trace p.1 p.2 with
        | some v =>
          rw [if_pos ⟨List.mem_cons_self .., rfl⟩]
          exact dget_dput_self m0 (p.1, p.2) v
        | none =>
          rw [if_neg (fun hc => Bool.noConfusion hc.2)]
      · have hm : (k ∈ p :: rest) ↔ k ∈ rest := by
          rw [List.mem_cons]
          exact or_iff_right (fun e => hpk e.symm)
        rw [if_neg (fun hc => hr ⟨hm.mp hc.1, hc.2⟩)]
        cases hlv : hop_latency trace p.1 p.2 with
        | some v => exact dget_dput_ne m0 (p.1, p.2) k v hpk
        | none => rfl

/-- Claim C4 (amended): for every hop, the discrete `<value> ms` scan takes
priority — when it has any match after that hop's address the minimum such
value is assigned, and only otherwise is the multi-column (MTR) average
column used; when neither pattern matches, the hop is absent from the
latency map (unset, not zero).  (The claim as stated gives the average
column priority over the `ms` tokens; the code tries the `ms` scan
first.) -/
theorem claim_C4_amended_latency_priority (trace : String) (l : List (Nat × String))
    (k : Nat × String) :
    dget (extract_latencies trace l) k =
      if k ∈ l then
        match msMatches trace k.2 with
        | [] =>
          match columnMatches trace k.1 with
          | [] => Option.none
          | t :: _ => pyFloat t.2.1
        | ms => minFloats ms
      else Option.none := by
  have hrfl : (match msMatches trace k.2 with
      | [] =>
        match columnMatches trace k.1 with
        | [] => Option.none
        | t :: _ => pyFloat t.2.1
      | ms => minFloats ms) = hop_latency trace k.1 k.2 := rfl
  rw [hrfl]
  rw [extract_latencies, extract_latencies_foldl trace k l []]
  by_cases hmem : k ∈ l
  · rw [if_pos hmem]
    cases hlv : hop_latency trace k.1 k.2 with
    | some v => rw [if_pos ⟨hmem, rfl⟩]
    | none =>
      rw [if_neg (fun hc => Bool.noConfusion hc.2)]
      rfl
  · rw [if_neg hmem, if_neg (fun hc => hmem hc.1)]
    rfl

/-- Counterexample to claim C4 as stated: in this trace the multi-column
format is detected for hop 1 (with average column value 2.0), yet the code
assigns 4.0 — the minimum of the `<value> ms` tokens — because the `ms`
scan matched and takes priority, while the claim requires the average
column to win whenever the multi-column format is detected. -/
theorem claim_C4_counterexample :
    columnMatches " 1. 10.0.0.1 5.0 2.0 3.0 4.0 ms\n" 1 ≠ [] ∧
    ((columnMatches " 1. 10.0.0.1 5.0 2.0 3.0 4.0 ms\n" 1).head?.map
        (fun t => pyFloat t.2.1)) = some (some ⟨20, 1⟩) ∧
    dget (extract_latencies " 1. 10.0.0.1 5.0 2.0 3.0 4.0 ms\n" [(1, "10.0.0.1")])
        (1, "10.0.0.1") = some ⟨40, 1⟩ ∧
    PyFloat.beq ⟨40, 1⟩ ⟨20, 1⟩ = false :=
  ⟨by decide, by decide, by decide, by decide⟩

theorem create_map_locations_eq (net : Net) (ips : List (Nat × String))
    (loss : List (Nat × PyFloat)) (hosts asns : List (Nat × String))
    (latencies : List ((Nat × String) × PyFloat)) :
    create_map_locations net ips loss hosts asns latencies =
      (ips.filter (fun p => geo_plottable net p.2)).map
        (map_entry_for net loss hosts asns latencies) := by
  rw [create_map_locations]
  suffices h : ∀ (l : List (Nat × String)) (acc : List MapEntry),
      l.foldl (fun acc p =>
        match get_location_val net p.2 with
        | some l =>
          if l.lat ≠ JVal.none ∧ l.lon ≠ JVal.none then
            acc ++ [{ ip := l.ip, country := l.country, region := l.region,
                      city := l.city, asn := l.asn, lat := l.lat, lon := l.lon,
                      hop := p.1,
                      latency := dget latencies (p.1, p.2),
                      packet_loss := (dget loss p.1).getD (pf 0),
                      hostname := (dget hosts p.1).getD "",
                      asn_display := match dget asns p.1 with
                                     | some a => .str a
                                     | Option.none => l.asn }]
          else acc
        | Option.none => acc) acc =
      acc ++ (l.filter (fun p => geo_plottable net p.2)).map
        (map_entry_for net loss hosts asns latencies) by
    simpa using h ips []
  intro l
  induction l with
  | nil => simp
  | cons p rest ih =>
    intro acc
    rw [List.foldl_cons, ih]
    cases hg : get_location_val net p.2 with
    | none =>
      have hpl : geo_plottable net p.2 = false := by
        rw [geo_plottable, hg]
      simp [List.filter_cons, hpl]
    | some loc =>
      by_cases hco : loc.lat ≠ JVal.none ∧ loc.lon ≠ JVal.none
      · have hpl : geo_plottable net p.2 = true := by
          rw [geo_plottable, hg]
          show (decide (loc.lat ≠ JVal.none) && decide (loc.lon ≠ JVal.none)) = true
          rw [decide_eq_true hco.1, decide_eq_true hco.2]
          rfl
        have hent : map_entry_for net loss hosts asns latencies p =
            { ip := loc.ip, country := loc.country, region := loc.region,
              city := loc.city, asn := loc.asn, lat := loc.lat, lon := loc.lon,
              hop := p.1,
              latency := dget latencies (p.1, p.2),
              packet_loss := (dget loss p.1).getD (pf 0),
              hostname := (dget hosts p.1).getD "",
              asn_display := match dget asns p.1 with
                             | some a => .str a
                             | Option.none => loc.asn } := by
          rw [map_entry_for, hg]
        simp [List.filter_cons, hpl, hent, hco]
      · have hpl : geo_plottable net p.2 = false := by
          rw [geo_plottable, hg]
          show (decide (loc.lat ≠ JVal.none) && decide (loc.lon ≠ JVal.none)) = false
          rcases not_and_or.mp hco with hc | hc
          · rw [decide_eq_false hc]
            rfl
          · rw [decide_eq_false hc]
            exact Bool.and_false _
        simp [List.filter_cons, hpl, hco]

/-- The hop indices plotted on the map, in marker/path order, are exactly
the extracted pairs that geolocate with coordinates, in extraction order. -/
theorem create_map_hops (net : Net) (ips : List (Nat × String))
    (loss : List (Nat × PyFloat)) (hosts asns : List (Nat × String))
    (latencies : List ((Nat × String) × PyFloat)) :
    (create_map_locations net ips loss hosts asns latencies).map (·.hop) =
      (ips.filter (fun p => geo_plottable net p.2)).map (·.1) := by
  rw [create_map_locations_eq, List.map_map]
  refine List.map_congr_left ?_
  intro p _
  show (map_entry_for net loss hosts asns latencies p).hop = p.1
  rw [map_entry_for]
  cases get_location_val net p.2 <;> rfl

theorem print_route_summary_rows_hops (ips : List (Nat × String))
    (locations : List MapEntry) (loss : List (Nat × PyFloat))
    (hosts asns : List (Nat × String)) (latencies : List ((Nat × String) × PyFloat)) :
    (print_route_summary_rows ips locations loss hosts asns latencies).map (·.hop) =
      sortedSet (ips.map (·.1) ++ loss.map (·.1)) := by
  rw [print_route_summary_rows, List.map_map]
  conv_rhs => rw [← List.map_id (sortedSet (ips.map (·.1) ++ loss.map (·.1)))]
  refine List.map_congr_left ?_
  intro h _
  rfl

theorem save_route_data_rows_hops (ips : List (Nat × String))
    (locations : List MapEntry) (loss : List (Nat × PyFloat))
    (hosts asns : List (Nat × String)) (latencies : List ((Nat × String) × PyFloat)) :
    (save_route_data_rows ips locations loss hosts asns latencies).map (·.hop) =
      sortedSet (ips.map (·.1) ++ loss.map (·.1)) := by
  rw [save_route_data_rows, List.map_map]
  conv_rhs => rw [← List.map_id (sortedSet (ips.map (·.1) ++ loss.map (·.1)))]
  refine List.map_congr_left ?_
  intro h _
  rfl

/-- Claim C5 (amended): the console hop table and the data-export rows are
in strictly ascending hop-index order whatever the inputs; the map, however,
plots its markers and path in extraction (discovery) order — the plotted hop
sequence is the extracted pair list filtered to the geolocatable addresses,
not a re-sorted one.  (The claim as stated also requires ascending order of
the map's plotted hop sequence, which the code does not sort.) -/
theorem claim_C5_amended_output_ordering (net : Net) (ips : List (Nat × String))
    (locations : List MapEntry) (loss : List (Nat × PyFloat))
    (hosts asns : List (Nat × String)) (latencies : List ((Nat × String) × PyFloat)) :
    List.Sorted (· < ·)
      ((print_route_summary_rows ips locations loss hosts asns latencies).map (·.hop)) ∧
    List.Sorted (· < ·)
      ((save_route_data_rows ips locations loss hosts asns latencies).map (·.hop)) ∧
    (create_map_locations net ips loss hosts asns latencies).map (·.hop) =
      (ips.filter (fun p => geo_plottable net p.2)).map (·.1) := by
  refine ⟨?_, ?_, create_map_hops net ips loss hosts asns latencies⟩
  · rw [print_route_summary_rows_hops]
    exact sortedSet_sorted _
  · rw [save_route_data_rows_hops]
    exact sortedSet_sorted _

theorem family1_step_loss (dns : String → Option String) (st : ExtractState)
    (m : String × String × String × String) :
    (family1_step dns st m).loss = dput st.loss (hopNat m.1) (lossVal m.2.2.2) := by
  obtain ⟨hopS, asn, host, lossS⟩ := m
  rw [family1_step]
  cases family1_ip dns host with
  | none => rfl
  | some ip =>
    by_cases ha : asn ≠ "" ∧ asn ≠ "???"
    · simp only [if_pos ha]
    · simp only [if_neg ha]

theorem family1_step_ips (dns : String → Option String) (st : ExtractState)
    (m : String × String × String × String) :
    (family1_step dns st m).ips = st.ips ++
      (match family1_ip dns m.2.2.1 with
       | some ip => [(hopNat m.1, ip)]
       | Option.none => []) := by
  obtain ⟨hopS, asn, host, lossS⟩ := m
  rw [family1_step]
  cases family1_ip dns host with
  | none => simp
  | some ip =>
    by_cases ha : asn ≠ "" ∧ asn ≠ "???"
    · simp only [if_pos ha]
    · simp only [if_neg ha]

theorem family1_foldl_loss_absent (dns : String → Option String) (h : Nat) :
    ∀ (ms : List (String × String × String × String)) (st : ExtractState),
      ms.filter (fun m => decide (hopNat m.1 = h)) = [] →
      dget ((ms.foldl (family1_step dns) st).loss) h = dget st.loss h := by
  intro ms
  induction ms with
  | nil => intro st _; rfl
  | cons m rest ih =>
    intro st hf
    rw [List.filter_cons] at hf
    by_cases hm : hopNat m.1 = h
    · rw [if_pos (decide_eq_true hm)] at hf
      exact absurd hf (List.cons_ne_nil _ _)
    · rw [if_neg (by simpa using hm)] at hf
      rw [List.foldl_cons, ih _ hf, family1_step_loss]
      exact dget_dput_ne _ _ _ _ hm

theorem family1_foldl_loss_single (dns : String → Option String) (h : Nat)
    (m0 : String × String × String × String) :
    ∀ (ms : List (String × String × String × String)) (st : ExtractState),
      ms.filter (fun m => decide (hopNat m.1 = h)) = [m0] →
      dget ((ms.foldl (family1_step dns) st).loss) h = some (lossVal m0.2.2.2) := by
  intro ms
  induction ms with
  | nil => intro st hf; simp at hf
  | cons m rest ih =>
    intro st hf
    rw [List.filter_cons] at hf
    by_cases hm : hopNat m.1 = h
    · rw [if_pos (decide_eq_true hm)] at hf
      have hm0 : m = m0 := (List.cons.injEq .. ▸ hf).1
      have hrest : rest.filter (fun m => decide (hopNat m.1 = h)) = [] :=
        (List.cons.injEq .. ▸ hf).2
      rw [List.foldl_cons, family1_foldl_loss_absent dns h rest _ hrest]
      rw [family1_step_loss, hm, hm0]
      exact dget_dput_self ..
    · rw [if_neg (by simpa using hm)] at hf
      rw [List.foldl_cons]
      exact ih _ hf

theorem family1_foldl_ips (dns : String → Option String) :
    ∀ (ms : List (String × String × String × String)) (st : ExtractState),
      (ms.foldl (family1_step dns) st).ips = st.ips ++
        ms.filterMap (fun m => (family1_ip dns m.2.2.1).map (fun ip => (hopNat m.1, ip))) := by
  intro ms
  induction ms with
  | nil => intro st; simp
  | cons m rest ih =>
    intro st
    rw [List.foldl_cons, ih, family1_step_ips, List.filterMap_cons]
    cases hip : family1_ip dns m.2.2.1 with
    | none => simp
    | some ip => simp

/-- Claim C6 (amended): if the full-MTR family is in effect and the only
family-1 match at hop index `h` is one whose host yields no address (the
`???`/`unknown` marker or an unresolvable hostname) and whose loss parses to
100, then: no extracted pair carries index `h`; the console table and the
CSV export still contain a row for `h` showing address `???`; no plotted map
location carries index `h`; and `h` appears in the map's unreachable-hops
overlay.  (The claim as stated omits the requirement that the line be the
*only* family-1 match carrying its hop index: the counterexample exhibits
both failure modes — a second line supplying an address for the index makes
a Hop appear after all, and a second address-less line with a different
loss overwrites the recorded loss, emptying the unreachable overlay.) -/
theorem claim_C6_amended_unreachable_hop (dns : String → Option String) (net : Net)
    (trace : String) (h : Nat) (m0 : String × String × String × String)
    (h1 : mtrFullMatches trace ≠ [])
    (h2 : (mtrFullMatches trace).filter (fun m => decide (hopNat m.1 = h)) = [m0])
    (h3 : family1_ip dns m0.2.2.1 = Option.none)
    (h4 : (lossVal m0.2.2.2).beq (pf 100) = true) :
    (h ∉ (extract_ips_from_trace dns trace).ips.map (·.1)) ∧
    (∃ row ∈ print_route_summary_rows (extract_ips_from_trace dns trace).ips
        (create_map_locations net (extract_ips_from_trace dns trace).ips
          (extract_ips_from_trace dns trace).loss (extract_ips_from_trace dns trace).hosts
          (extract_ips_from_trace dns trace).asns
          (extract_latencies trace (extract_ips_from_trace dns trace).ips))
        (extract_ips_from_trace dns trace).loss (extract_ips_from_trace dns trace).hosts
        (extract_ips_from_trace dns trace).asns
        (extract_latencies trace (extract_ips_from_trace dns trace).ips),
      row.hop = h ∧ row.ip_str = "???") ∧
    (∃ row ∈ save_route_data_rows (extract_ips_from_trace dns trace).ips
        (create_map_locations net (extract_ips_from_trace dns trace).ips
          (extract_ips_from_trace dns trace).loss (extract_ips_from_trace dns trace).hosts
          (extract_ips_from_trace dns trace).asns
          (extract_latencies trace (extract_ips_from_trace dns trace).ips))
        (extract_ips_from_trace dns trace).loss (extract_ips_from_trace dns trace).hosts
        (extract_ips_from_trace dns trace).asns
        (extract_latencies trace (extract_ips_from_trace dns trace).ips),
      row.hop = h ∧ row.ip = "???") ∧
    (∀ e ∈ create_map_locations net (extract_ips_from_trace dns trace).ips
        (extract_ips_from_trace dns trace).loss (extract_ips_from_trace dns trace).hosts
        (extract_ips_from_trace dns trace).asns
        (extract_latencies trace (extract_ips_from_trace dns trace).ips),
      e.hop ≠ h) ∧
    (∃ hostS asnS, (h, hostS, asnS) ∈ create_map_unreachable
        (extract_ips_from_trace dns trace).ips (extract_ips_from_trace dns trace).loss
        (extract_ips_from_trace dns trace).hosts (extract_ips_from_trace dns trace).asns) := by
  have hpre : extract_pre dns trace = family1_state dns trace := by
    rw [extract_pre, if_pos h1]
  have hips : (extract_ips_from_trace dns trace).ips =
      dedupFilter (family1_state dns trace).ips [] := by
    rw [extract_ips_from_trace, hpre]
  have hloss : (extract_ips_from_trace dns trace).loss = (family1_state dns trace).loss := by
    rw [extract_ips_from_trace, hpre]
  -- no raw candidate (hence no deduplicated pair) carries index h
  have hraw : ∀ p ∈ (family1_state dns trace).ips, p.1 ≠ h := by
    intro p hp hph
    rw [family1_state, family1_foldl_ips] at hp
    rw [List.nil_append] at hp
    obtain ⟨m, hm, hmp⟩ := List.mem_filterMap.mp hp
    obtain ⟨ip, hip, hpe⟩ := Option.map_eq_some'.mp hmp
    have hmf : m ∈ (mtrFullMatches trace).filter (fun m => decide (hopNat m.1 = h)) := by
      refine List.mem_filter.mpr ⟨hm, ?_⟩
      have : hopNat m.1 = h := by rw [← hpe] at hph; exact hph
      exact decide_eq_true this
    rw [h2] at hmf
    have hmm0 : m = m0 := by simpa using hmf
    rw [hmm0, h3] at hip
    exact Option.noConfusion hip
  have hnoh : h ∉ (extract_ips_from_trace dns trace).ips.map (·.1) := by
    intro hc
    obtain ⟨p, hp, hph⟩ := List.mem_map.mp hc
    have hpraw : p ∈ (family1_state dns trace).ips :=
      List.mem_of_find?_eq_some (dedupFilter_spec (hips ▸ hp)).2.2
    exact hraw p hpraw hph
  have hlossval : dget (extract_ips_from_trace dns trace).loss h =
      some (lossVal m0.2.2.2) := by
    rw [hloss, family1_state]
    exact family1_foldl_loss_single dns h m0 (mtrFullMatches trace) _ h2
  have hfind : (extract_ips_from_trace dns trace).ips.find?
      (fun p => decide (p.1 = h)) = Option.none := by
    rw [List.find?_eq_none]
    intro p hp hc
    have hpraw : p ∈ (family1_state dns trace).ips :=
      List.mem_of_find?_eq_some (dedupFilter_spec (hips ▸ hp)).2.2
    exact hraw p hpraw (of_decide_eq_true hc)
  have hmem_hops : h ∈ sortedSet ((extract_ips_from_trace dns trace).ips.map (·.1) ++
      (extract_ips_from_trace dns trace).loss.map (·.1)) := by
    rw [mem_sortedSet, List.mem_append]
    exact Or.inr (dget_some_mem_keys hlossval)
  refine ⟨hnoh, ?_, ?_, ?_, ?_⟩
  · refine ⟨_, List.mem_map.mpr ⟨h, hmem_hops, rfl⟩, rfl, ?_⟩
    show ((((extract_ips_from_trace dns trace).ips.find?
      (fun p => decide (p.1 = h))).map (·.2)).getD "???") = "???"
    rw [hfind]
    rfl
  · refine ⟨_, List.mem_map.mpr ⟨h, hmem_hops, rfl⟩, rfl, ?_⟩
    show ((((extract_ips_from_trace dns trace).ips.find?
      (fun p => decide (p.1 = h))).map (·.2)).getD "???") = "???"
    rw [hfind]
    rfl
  · intro e he hc
    rw [create_map_locations_eq] at he
    obtain ⟨p, hp, hpe⟩ := List.mem_map.mp he
    have hhop : e.hop = p.1 := by
      rw [← hpe, map_entry_for]
      cases get_location_val net p.2 <;> rfl
    have hpraw : p ∈ (family1_state dns trace).ips :=
      List.mem_of_find?_eq_some (dedupFilter_spec (hips ▸ List.mem_of_mem_filter hp)).2.2
    exact hraw p hpraw (hhop ▸ hc)
  · refine ⟨(dget (extract_ips_from_trace dns trace).hosts h).getD "???",
            (dget (extract_ips_from_trace dns trace).asns h).getD "???", ?_⟩
    rw [create_map_unreachable]
    refine List.mem_map.mpr ⟨h, ?_, rfl⟩
    refine List.mem_filter.mpr ⟨?_, ?_⟩
    · rw [mem_sortedSet]
      exact dget_some_mem_keys hlossval
    · rw [hlossval]
      show ((lossVal m0.2.2.2).beq (pf 100) && decide (h ∉ (extract_ips_from_trace dns trace).ips.map (·.1))) = true
      rw [h4, decide_eq_true hnoh]
      rfl

/-- Counterexample to claim C6 as stated, in two parts.  First, hop index 5
of `ex_trace_dup5` carries a `???` line with 100% loss, yet a second trace
line gives the same index a literal address, so a Hop entry for index 5
*is* emitted (and the console/export row for index 5 shows that address
rather than `???`).  Second, hop index 5 of `ex_trace_gap5` carries a `???`
line with 100% loss and no line supplies an address for it, yet a later
address-less `???` line overwrites `packet_loss[5]` with 3.0, so the
`packet_loss[hop] == 100` test leaves the unreachable-hops overlay empty —
the hop is listed nowhere, against the claim's conclusion. -/
theorem claim_C6_counterexample :
    (("5", "1", "???", "100.0") ∈ mtrFullMatches ex_trace_dup5 ∧
     (extract_ips_from_trace ex_dns ex_trace_dup5).ips = [(5, "8.8.8.8")]) ∧
    (("5", "1", "???", "100.0") ∈ mtrFullMatches ex_trace_gap5 ∧
     (∀ m ∈ mtrFullMatches ex_trace_gap5,
        hopNat m.1 = 5 → family1_ip ex_dns m.2.2.1 = Option.none) ∧
     (extract_ips_from_trace ex_dns ex_trace_gap5).ips = [(1, "1.1.1.1")] ∧
     dget (extract_ips_from_trace ex_dns ex_trace_gap5).loss 5 = some ⟨30, 1⟩ ∧
     create_map_unreachable (extract_ips_from_trace ex_dns ex_trace_gap5).ips
       (extract_ips_from_trace ex_dns ex_trace_gap5).loss
       (extract_ips_from_trace ex_dns ex_trace_gap5).hosts
       (extract_ips_from_trace ex_dns ex_trace_gap5).asns = []) :=
  ⟨⟨by decide, by decide⟩, by decide, by decide, by decide, by decide, by decide⟩

/-- Witness for the amended C6 on the concrete unreachable-hop trace. -/
theorem claim_C6_amended_unreachable_hop_witness :
    (2 ∉ (extract_ips_from_trace ex_dns ex_trace_unreach).ips.map (·.1)) ∧
    (∃ row ∈ print_route_summary_rows (extract_ips_from_trace ex_dns ex_trace_unreach).ips
        (create_map_locations ex_net (extract_ips_from_trace ex_dns ex_trace_unreach).ips
          (extract_ips_from_trace ex_dns ex_trace_unreach).loss
          (extract_ips_from_trace ex_dns ex_trace_unreach).hosts
          (extract_ips_from_trace ex_dns ex_trace_unreach).asns
          (extract_latencies ex_trace_unreach (extract_ips_from_trace ex_dns ex_trace_unreach).ips))
        (extract_ips_from_trace ex_dns ex_trace_unreach).loss
        (extract_ips_from_trace ex_dns ex_trace_unreach).hosts
        (extract_ips_from_trace ex_dns ex_trace_unreach).asns
        (extract_latencies ex_trace_unreach (extract_ips_from_trace ex_dns ex_trace_unreach).ips),
      row.hop = 2 ∧ row.ip_str = "???") ∧
    (∃ row ∈ save_route_data_rows (extract_ips_from_trace ex_dns ex_trace_unreach).ips
        (create_map_locations ex_net (extract_ips_from_trace ex_dns ex_trace_unreach).ips
          (extract_ips_from_trace ex_dns ex_trace_unreach).loss
          (extract_ips_from_trace ex_dns ex_trace_unreach).hosts
          (extract_ips_from_trace ex_dns ex_trace_unreach).asns
          (extract_latencies ex_trace_unreach (extract_ips_from_trace ex_dns ex_trace_unreach).ips))
        (extract_ips_from_trace ex_dns ex_trace_unreach).loss
        (extract_ips_from_trace ex_dns ex_trace_unreach).hosts
        (extract_ips_from_trace ex_dns ex_trace_unreach).asns
        (extract_latencies ex_trace_unreach (extract_ips_from_trace ex_dns ex_trace_unreach).ips),
      row.hop = 2 ∧ row.ip = "???") ∧
    (∀ e ∈ create_map_locations ex_net (extract_ips_from_trace ex_dns ex_trace_unreach).ips
        (extract_ips_from_trace ex_dns ex_trace_unreach).loss
        (extract_ips_from_trace ex_dns ex_trace_unreach).hosts
        (extract_ips_from_trace ex_dns ex_trace_unreach).asns
        (extract_latencies ex_trace_unreach (extract_ips_from_trace ex_dns ex_trace_unreach).ips),
      e.hop ≠ 2) ∧
    (∃ hostS asnS, (2, hostS, asnS) ∈ create_map_unreachable
        (extract_ips_from_trace ex_dns ex_trace_unreach).ips
        (extract_ips_from_trace ex_dns ex_trace_unreach).loss
        (extract_ips_from_trace ex_dns ex_trace_unreach).hosts
        (extract_ips_from_trace ex_dns ex_trace_unreach).asns) :=
  claim_C6_amended_unreachable_hop ex_dns ex_net ex_trace_unreach 2
    ("2", "???", "???", "100.0") (by decide) (by decide) (by decide) (by decide)

/-- Counterexample to claim C5 as stated: a trace listing hop 2 before hop 1
produces a map whose plotted hop sequence is `[2, 1]` — the map is drawn in
discovery order, not ascending hop order (console and export do sort). -/
theorem claim_C5_counterexample :
    (create_map_locations ex_net ex_state_desc.ips ex_state_desc.loss ex_state_desc.hosts
        ex_state_desc.asns (extract_latencies ex_trace_desc ex_state_desc.ips)).map (·.hop) =
      [2, 1] ∧
    ¬ List.Sorted (· < ·) ([2, 1] : List Nat) := by
  constructor
  · decide
  · intro h
    exact absurd (List.rel_of_sorted_cons h 1 (by simp)) (by decide)

theorem primary_locparse_coords {data : JDoc} {lat lon : JVal}
    (heq : primary_locparse data = .ok (lat, lon))
    (hco : lat ≠ JVal.none ∧ lon ≠ JVal.none) :
    ∃ s la lo qa qb, jget data "loc" = some (.str s) ∧ splitCh ',' s = [la, lo] ∧
      pyFloat la = some qa ∧ pyFloat lo = some qb ∧ lat = .num qa ∧ lon = .num qb := by
  rw [primary_locparse] at heq
  split at heq
  · rename_i hcond
    split at heq
    · rename_i s hjv
      have hpair : parseLoc s = (lat, lon) := by
        injection heq
      have hjget : jget data "loc" = some (.str s) := by
        cases hjg : jget data "loc" with
        | none =>
          rw [jgetD, hjg] at hjv
          exact absurd hjv (by simp)
        | some v =>
          rw [jgetD, hjg] at hjv
          have hv : v = JVal.str s := hjv
          rw [hv]
      rw [parseLoc] at hpair
      split at hpair
      · rename_i la lo hsp
        split at hpair
        · exact absurd (congrArg Prod.fst hpair) (by simpa using fun e => hco.1 e.symm)
        · rename_i qa hqa
          split at hpair
          · exact absurd (congrArg Prod.snd hpair) (by simpa using fun e => hco.2 e.symm)
          · rename_i qb hqb
            refine ⟨s, la, lo, qa, qb, hjget, hsp, hqa, hqb, ?_, ?_⟩
            · exact (congrArg Prod.fst hpair).symm
            · exact (congrArg Prod.snd hpair).symm
      · exact absurd (congrArg Prod.fst hpair) (by simpa using fun e => hco.1 e.symm)
    · exact Except.noConfusion heq
  · have : (JVal.none, JVal.none) = (lat, lon) := by injection heq
    exact absurd (congrArg Prod.fst this) (by simpa using fun e => hco.1 e.symm)

/-- Claim C8: a primary-provider answer is accepted only when the response
arrived with status 200, decoded as JSON, and carried a `loc` string that
splits into exactly two float-parseable coordinates (which become the
location's `lat`/`lon`); a fallback-provider answer is accepted only when
its decoded JSON carries the explicit `status == "success"` indicator. -/
theorem claim_C8_provider_sufficiency (net : Net) (ip : String) (l : Location) :
    (primary_attempt net ip = .ok (some l) →
      ∃ resp data s la lo qa qb,
        net (urlPrimary ip) = .ok resp ∧ resp.status_code = 200 ∧
        resp.json = .ok data ∧ jget data "loc" = some (.str s) ∧
        splitCh ',' s = [la, lo] ∧ pyFloat la = some qa ∧ pyFloat lo = some qb ∧
        l.lat = .num qa ∧ l.lon = .num qb) ∧
    (fallback_attempt net ip = .ok (some l) →
      ∃ resp data, net (urlFallback ip) = .ok resp ∧ resp.json = .ok data ∧
        jgetD data "status" JVal.none = JVal.str "success") := by
  constructor
  · intro h
    rw [primary_attempt] at h
    split at h
    · exact Except.noConfusion h
    · rename_i resp hresp
      split at h
      · rename_i hst
        split at h
        · exact Except.noConfusion h
        · rename_i data hdata
          split at h
          · exact Except.noConfusion h
          · rename_i lat lon hlp
            split at h
            · rename_i hco
              obtain ⟨s, la, lo, qa, qb, hjget, hsp, hqa, hqb, hlat, hlon⟩ :=
                primary_locparse_coords hlp hco
              have hl2 := Option.some.inj (Except.ok.inj h)
              refine ⟨resp, data, s, la, lo, qa, qb, hresp, hst, hdata, hjget, hsp,
                hqa, hqb, ?_, ?_⟩
              · rw [← hl2]
                exact hlat
              · rw [← hl2]
                exact hlon
            · exact Option.noConfusion (Except.ok.inj h)
      · exact Option.noConfusion (Except.ok.inj h)
  · intro h
    rw [fallback_attempt] at h
    split at h
    · exact Except.noConfusion h
    · rename_i resp hresp
      split at h
      · exact Except.noConfusion h
      · rename_i data hdata
        split at h
        · rename_i hstat
          exact ⟨resp, data, hresp, hdata, hstat⟩
        · exact Option.noConfusion (Except.ok.inj h)

/-- Witness for C8: a primary response with `loc = "1.5,2.5"` is accepted
with those coordinates, and a fallback response with `status = "success"`
is accepted. -/
theorem claim_C8_provider_sufficiency_witness :
    (∃ resp data s la lo qa qb,
        ex_net (urlPrimary "8.8.8.8") = .ok resp ∧ resp.status_code = 200 ∧
        resp.json = .ok data ∧ jget data "loc" = some (.str s) ∧
        splitCh ',' s = [la, lo] ∧ pyFloat la = some qa ∧ pyFloat lo = some qb ∧
        JVal.num ⟨15, 1⟩ = .num qa ∧ JVal.num ⟨25, 1⟩ = .num qb) ∧
    (∃ resp data, ex_net_fb (urlFallback "1.0.0.1") = .ok resp ∧ resp.json = .ok data ∧
        jgetD data "status" JVal.none = JVal.str "success") :=
  ⟨(claim_C8_provider_sufficiency ex_net "8.8.8.8"
      { ip := "8.8.8.8", country := .str "Unknown", region := .str "Unknown",
        city := .str "Unknown", asn := .str "Unknown",
        lat := .num ⟨15, 1⟩, lon := .num ⟨25, 1⟩ }).1 (by decide),
   (claim_C8_provider_sufficiency ex_net_fb "1.0.0.1"
      { ip := "1.0.0.1", country := .str "Unknown", region := .str "Unknown",
        city := .str "Unknown", asn := .str "Unknown",
        lat := .num ⟨7, 0⟩, lon := JVal.none }).2 (by decide)⟩

theorem digitCh_inj_small : ∀ d1 < 10, ∀ d2 < 10, digitCh d1 = digitCh d2 → d1 = d2 := by
  decide

theorem pad2_inj {a b : Nat} (ha : a < 100) (hb : b < 100) (h : pad2 a = pad2 b) :
    a = b := by
  rw [pad2, pad2] at h
  simp only [List.cons.injEq, and_true] at h
  obtain ⟨hc1, hc2⟩ := h
  have d1 := digitCh_inj_small (a / 10 % 10) (by omega) (b / 10 % 10) (by omega) hc1
  have d2 := digitCh_inj_small (a % 10) (by omega) (b % 10) (by omega) hc2
  omega

theorem pad4_inj {a b : Nat} (ha : a < 10000) (hb : b < 10000) (h : pad4 a = pad4 b) :
    a = b := by
  rw [pad4, pad4] at h
  simp only [List.cons.injEq, and_true] at h
  obtain ⟨hc1, hc2, hc3, hc4⟩ := h
  have d1 := digitCh_inj_small (a / 1000 % 10) (by omega) (b / 1000 % 10) (by omega) hc1
  have d2 := digitCh_inj_small (a / 100 % 10) (by omega) (b / 100 % 10) (by omega) hc2
  have d3 := digitCh_inj_small (a / 10 % 10) (by omega) (b / 10 % 10) (by omega) hc3
  have d4 := digitCh_inj_small (a % 10) (by omega) (b % 10) (by omega) hc4
  omega

theorem strftime_ts_inj {t1 t2 : PyDateTime} (h1 : t1.valid) (h2 : t2.valid)
    (h : strftime_ts t1 = strftime_ts t2) : secondTuple t1 = secondTuple t2 := by
  obtain ⟨hy1a, hy1b, hmo1, hd1, hh1, hmi1, hs1⟩ := h1
  obtain ⟨hy2a, hy2b, hmo2, hd2, hh2, hmi2, hs2⟩ := h2
  rw [strftime_ts, strftime_ts] at h
  obtain ⟨h, es⟩ := List.append_inj h rfl
  obtain ⟨h, emi⟩ := List.append_inj h rfl
  obtain ⟨h, eh⟩ := List.append_inj h rfl
  obtain ⟨h, -⟩ := List.append_inj h rfl
  obtain ⟨h, ed⟩ := List.append_inj h rfl
  obtain ⟨ey, emo⟩ := List.append_inj h rfl
  rw [secondTuple, secondTuple]
  simp only [Prod.mk.injEq]
  exact ⟨pad4_inj hy1b hy2b ey, pad2_inj hmo1 hmo2 emo, pad2_inj hd1 hd2 ed,
         pad2_inj hh1 hh2 eh, pad2_inj hmi1 hmi2 emi, pad2_inj hs1 hs2 es⟩

theorem strftime_ts_congr {t1 t2 : PyDateTime}
    (h : secondTuple t1 = secondTuple t2) : strftime_ts t1 = strftime_ts t2 := by
  rw [secondTuple, secondTuple] at h
  simp only [Prod.mk.injEq] at h
  obtain ⟨hy, hmo, hd, hh, hmi, hs⟩ := h
  rw [strftime_ts, strftime_ts, hy, hmo, hd, hh, hmi, hs]

/-- Claim C9 (amended): the map and data-export filenames are determined by
— and only by — the second-resolution wall-clock reading: two runs whose
formatted timestamps differ in any displayed field get distinct filenames,
while two runs within the same wall-clock second (however far apart their
microsecond fields) get identical filenames, so the later run silently
overwrites the earlier one's artifacts.  (The claim as stated asserts
sub-second or sequence disambiguation, which the code does not have.) -/
theorem claim_C9_amended_filename_collision (t1 t2 : PyDateTime)
    (h1 : t1.valid) (h2 : t2.valid) :
    (map_filename t1 = map_filename t2 ↔ secondTuple t1 = secondTuple t2) ∧
    (data_filename t1 = data_filename t2 ↔ secondTuple t1 = secondTuple t2) := by
  have hcore : strftime_ts t1 = strftime_ts t2 ↔ secondTuple t1 = secondTuple t2 :=
    ⟨strftime_ts_inj h1 h2, strftime_ts_congr⟩
  constructor
  · constructor
    · intro h
      apply hcore.mp
      have hd : "trace_map_".toList ++ strftime_ts t1 ++ ".html".toList =
          "trace_map_".toList ++ strftime_ts t2 ++ ".html".toList :=
        congrArg String.data h
      exact (List.append_inj (List.append_inj hd rfl).1 rfl).2
    · intro h
      rw [map_filename, map_filename, hcore.mpr h]
  · constructor
    · intro h
      apply hcore.mp
      have hd : "trace_data_".toList ++ strftime_ts t1 ++ ".csv".toList =
          "trace_data_".toList ++ strftime_ts t2 ++ ".csv".toList :=
        congrArg String.data h
      exact (List.append_inj (List.append_inj hd rfl).1 rfl).2
    · intro h
      rw [data_filename, data_filename, hcore.mpr h]

/-- Counterexample to claim C9 as stated: two runs in the same wall-clock
second (microsecond readings 0 and 999999) produce identical map and export
filenames — nothing disambiguates them, so the later run overwrites the
earlier one's files. -/
theorem claim_C9_counterexample :
    (⟨2026, 10, 12, 9, 30, 5, 0⟩ : PyDateTime) ≠ ⟨2026, 10, 12, 9, 30, 5, 999999⟩ ∧
    map_filename ⟨2026, 10, 12, 9, 30, 5, 0⟩ =
      map_filename ⟨2026, 10, 12, 9, 30, 5, 999999⟩ ∧
    data_filename ⟨2026, 10, 12, 9, 30, 5, 0⟩ =
      data_filename ⟨2026, 10, 12, 9, 30, 5, 999999⟩ :=
  ⟨by decide, by decide, by decide⟩

/-- Witness for the amended C9: runs one second apart do get distinct
artifact filenames. -/
theorem claim_C9_amended_filename_collision_witness :
    map_filename ⟨2026, 10, 12, 9, 30, 5, 0⟩ ≠ map_filename ⟨2026, 10, 12, 9, 30, 6, 0⟩ ∧
    data_filename ⟨2026, 10, 12, 9, 30, 5, 0⟩ ≠ data_filename ⟨2026, 10, 12, 9, 30, 6, 0⟩ :=
  ⟨fun h => absurd ((claim_C9_amended_filename_collision ⟨2026, 10, 12, 9, 30, 5, 0⟩
      ⟨2026, 10, 12, 9, 30, 6, 0⟩ (by decide) (by decide)).1.mp h) (by decide),
   fun h => absurd ((claim_C9_amended_filename_collision ⟨2026, 10, 12, 9, 30, 5, 0⟩
      ⟨2026, 10, 12, 9, 30, 6, 0⟩ (by decide) (by decide)).2.mp h) (by decide)⟩

end IpInfo
